import Mathlib

/-!
Shallow embedding of proxmox-autosnap.py (apprell/proxmox-autosnap) in Lean 4,
together with theorems checking the natural-language specification against it.

The embedding follows the source file function by function.  External
subprocesses, the guest registry and the cluster JSON queries are opaque
collaborators of the script; their observable results enter the model through
an explicit environment record, while every piece of logic the script itself
performs (string parsing, pattern matching, sorting, selection, command
composition) is translated directly from the Python code.
-/

/-! ### Python string primitives used by the script -/

/-- Whitespace characters recognised by Python str.split() / str.strip()
(ASCII subset; the script only ever feeds ASCII command output through them). -/
def isPySpace (c : Char) : Bool :=
  c == ' ' || c == '\t' || c == '\n' || c == '\r' || c == '\x0b' || c == '\x0c'

/-- Python str.replace of the three-character arrow marker (backtick, dash,
greater-than) by the empty string: scans left to right, removing each
non-overlapping occurrence.  Used on listsnapshot output lines (line 295). -/
def removeArrow : List Char → List Char
  | '\x60' :: '-' :: '>' :: rest => removeArrow rest
  | c :: rest => c :: removeArrow rest
  | [] => []

/-- Python line.split()[0]: first whitespace-delimited token.  Python raises
IndexError when the string holds no token; that is the none case here. -/
def firstToken (s : String) : Option String :=
  let cs := s.data.dropWhile isPySpace
  let tok := cs.takeWhile (fun c => !isPySpace c)
  if tok.isEmpty then none else some ⟨tok⟩

/-- Python str.split(sep) for a one-character separator, keeping empty
pieces (the semicolon-separated tag string). -/
def splitCharGo (sep : Char) : List Char → List Char → List String
  | [], acc => [⟨acc.reverse⟩]
  | c :: rest, acc =>
    if c == sep then ⟨acc.reverse⟩ :: splitCharGo sep rest []
    else splitCharGo sep rest (c :: acc)

def pySplitChar (sep : Char) (s : String) : List String :=
  splitCharGo sep s.data []

/-- Python str.split(sep) for a non-empty separator string: cut at the
non-overlapping occurrences left to right, keeping empty pieces.  Written
with explicit fuel so that it is structurally recursive; the fuel bound is
sufficient for every input. -/
def splitOnFuel (sep : List Char) : Nat → List Char → List Char → List String
  | _, [], acc => [⟨acc.reverse⟩]
  | 0, cs, acc => [⟨acc.reverse ++ cs⟩]
  | fuel + 1, c :: rest, acc =>
    if sep.isPrefixOf (c :: rest) then
      ⟨acc.reverse⟩ :: splitOnFuel sep fuel ((c :: rest).drop sep.length) []
    else splitOnFuel sep fuel rest (c :: acc)

def pySplitOn (sep s : String) : List String :=
  splitOnFuel sep.data (s.data.length + 1) s.data []

/-- Python str.splitlines() (newline-separated, no trailing empty entry). -/
def pySplitlines (s : String) : List String :=
  let l := pySplitOn "\n" s
  if l.getLast? = some "" then l.dropLast else l

/-- The sort key of line 300: x.replace('_', ''), removing every underscore. -/
def pySortKey (s : String) : String := ⟨s.data.filter (fun c => c != '_')⟩

/-! ### The retention selector (remove_snapshot, lines 288-314) -/

/-- Character class of the regex fragment [_0-9T] (line 295). -/
def isSuffixChar (c : Char) : Bool := c == '_' || c == 'T' || c.isDigit

/-- Matching the regex tail LABEL([_0-9T]+$) at the start of cs: cs must start
with the label and the rest must be a nonempty run of suffix characters
reaching the end of the string. -/
def matchLabelSuffix (label cs : List Char) : Bool :=
  label.isPrefixOf cs && !(cs.drop label.length).isEmpty
    && (cs.drop label.length).all isSuffixChar

/-- Matching the regex tail (_?)LABEL([_0-9T]+$): the greedy optional
underscore is tried first, then the alternative without it. -/
def matchAfterAuto (label : List Char) (cs : List Char) : Bool :=
  match cs with
  | '_' :: rest => matchLabelSuffix label rest || matchLabelSuffix label cs
  | _ => matchLabelSuffix label cs

/-- re.search of auto(_?)LABEL([_0-9T]+$) (line 295): leftmost position where
the whole pattern matches; since the pattern is anchored at the end of the
string, group(0) is the token from that position to the end. -/
def searchAuto (label : List Char) : List Char → Option (List Char)
  | [] => none
  | c :: rest =>
    if ['a', 'u', 't', 'o'].isPrefixOf (c :: rest)
        && matchAfterAuto label ((c :: rest).drop 4)
    then some (c :: rest)
    else searchAuto label rest

/-- The per-line regex search of line 295 returning group(0). -/
def reSearchAuto (label : String) (token : String) : Option String :=
  (searchAuto label.data token.data).map (fun cs => ⟨cs⟩)

/-- Lines 294-297: build listsnapshot from the listsnapshot output lines.
Each line is stripped of the arrow marker, its first whitespace-delimited
token is taken (none models Python's IndexError on a token-less line) and the
regex matches are collected in order. -/
def collectSnapshots (label : String) : List String → Option (List String)
  | [] => some []
  | line :: rest =>
    match firstToken ⟨removeArrow line.data⟩ with
    | none => none
    | some tok =>
      match collectSnapshots label rest with
      | none => none
      | some acc =>
        match reSearchAuto label tok with
        | some m => some (m :: acc)
        | none => some acc

/-- Stable insertion into a list already sorted in descending pySortKey order,
placing the new element before the first entry whose key is not larger. -/
def insertDescByKey (x : String) : List String → List String
  | [] => [x]
  | y :: ys => if pySortKey x < pySortKey y then y :: insertDescByKey x ys
               else x :: y :: ys

/-- Python sorted(listsnapshot, reverse=True, key=lambda x: x.replace('_',''))
of line 300: stable sort in descending key order. -/
def sortedDescByKey : List String → List String
  | [] => []
  | x :: xs => insertDescByKey x (sortedDescByKey xs)

/-- Lines 299-300: the old snapshots targeted for deletion.  The comprehension
enumerates the descending-sorted matches from 1 and keeps those whose rank
exceeds keep; it only runs under the guard of line 299 (otherwise nothing is
targeted). -/
def old_snapshots (keep : Int) (listsnapshot : List String) : List String :=
  if listsnapshot ≠ [] ∧ keep < (listsnapshot.length : Int) then
    ((List.enumFrom 1 (sortedDescByKey listsnapshot)).filter
        (fun p => decide (keep < (p.1 : Int)))).map Prod.snd
  else []

/-! ### Snapshot labels and timestamp formats (create_snapshot, lines 257-271) -/

/-- The argparse choices for the label option (line 350). -/
inductive Label where
  | minute | hourly | daily | weekly | monthly
deriving DecidableEq

/-- The label text exactly as it appears on the command line. -/
def Label.str : Label → String
  | .minute => "minute"
  | .hourly => "hourly"
  | .daily => "daily"
  | .weekly => "weekly"
  | .monthly => "monthly"

/-- A calendar timestamp as produced by datetime.now(); the script only reads
the fields that strftime and isoformat print. -/
structure DateTime where
  year : Nat
  month : Nat
  day : Nat
  hour : Nat
  minute : Nat
  second : Nat
deriving DecidableEq

/-- The w least significant decimal digits of n, most significant first
(exactly the zero-padded fixed-width fields strftime prints). -/
def padDigits : Nat → Nat → List Nat
  | 0, _ => []
  | w + 1, n => n / 10 ^ w :: padDigits w (n % 10 ^ w)

def digitChars (l : List Nat) : List Char := l.map Nat.digitChar

/-- A two-digit zero-padded strftime field (%y %m %d %H %M %S). -/
def pad2 (n : Nat) : List Char := digitChars (padDigits 2 n)

/-- A four-digit zero-padded strftime field (%Y). -/
def pad4 (n : Nat) : List Char := digitChars (padDigits 4 n)

/-- Line 270: strftime('%y%m%d%H%M%S'), the default compact suffix. -/
def compactSuffix (t : DateTime) : String :=
  ⟨pad2 (t.year % 100) ++ pad2 t.month ++ pad2 t.day
    ++ pad2 t.hour ++ pad2 t.minute ++ pad2 t.second⟩

/-- Line 266: strftime('%y%m%d_%H%M%S'), the human-format suffix. -/
def humanSuffix (t : DateTime) : String :=
  ⟨pad2 (t.year % 100) ++ pad2 t.month ++ pad2 t.day
    ++ '_' :: (pad2 t.hour ++ pad2 t.minute ++ pad2 t.second)⟩

/-- Line 268: strftime('%Y%m%d%H%M%S'), the TrueNAS suffix. -/
def truenasSuffix (t : DateTime) : String :=
  ⟨pad4 t.year ++ pad2 t.month ++ pad2 t.day
    ++ pad2 t.hour ++ pad2 t.minute ++ pad2 t.second⟩

/-- Line 264: underscore + isoformat(timespec='seconds') with dashes and
colons replaced by underscores. -/
def isoSuffix (t : DateTime) : String :=
  ⟨'_' :: (pad4 t.year ++ '_' :: (pad2 t.month ++ '_' :: (pad2 t.day
    ++ 'T' :: (pad2 t.hour ++ '_' :: (pad2 t.minute ++ '_' :: pad2 t.second)))))⟩

/-- Field ranges of a datetime value whose year lies in the century the
two-digit %y formats can represent faithfully. -/
def DateTime.Valid (t : DateTime) : Prop :=
  2000 ≤ t.year ∧ t.year < 2100 ∧ 1 ≤ t.month ∧ t.month ≤ 12 ∧
  1 ≤ t.day ∧ t.day ≤ 31 ∧ t.hour < 24 ∧ t.minute < 60 ∧ t.second < 60

instance (t : DateTime) : Decidable t.Valid := by
  unfold DateTime.Valid; infer_instance

/-- Chronological order of datetime values encoded as one number: under the
Valid field bounds this mixed-radix value is ordered exactly like the
lexicographic order of (year, month, day, hour, minute, second). -/
def chronoVal (t : DateTime) : Nat :=
  ((((t.year * 100 + t.month) * 100 + t.day) * 100 + t.hour) * 100
    + t.minute) * 100 + t.second

def c1Lines : List String :=
  ["autodaily251012120000 snapdesc", "\x60-> autodaily251010120000",
   "current You are here!", "autodaily251011120000"]

def c1Names : List String :=
  ["autodaily251012120000", "autodaily251010120000", "autodaily251011120000"]

/-- The numeric reading of the compact (and human) suffix: two-digit year. -/
def compactVal (t : DateTime) : Nat :=
  (((((t.year % 100) * 100 + t.month) * 100 + t.day) * 100 + t.hour) * 100
    + t.minute) * 100 + t.second

/-- The numeric reading of the date part of the ISO suffix. -/
def isoDateVal (t : DateTime) : Nat := (t.year * 100 + t.month) * 100 + t.day

/-- The numeric reading of the time part of the ISO suffix. -/
def isoTimeVal (t : DateTime) : Nat := (t.hour * 100 + t.minute) * 100 + t.second

/-- The character list of the retention sort key of a string. -/
def stripKey (s : String) : List Char := s.data.filter (fun c => c != '_')

/-- Lines 258-261: the label prefix of a snapshot name; the human-format flag
switches the dictionary to the underscored variant. -/
def labelText (human : Bool) (label : Label) : String :=
  if human then "auto_" ++ label.str ++ "_" else "auto" ++ label.str

/-- Lines 257-271: the snapshot name composed by create_snapshot: label
prefix plus the selected timestamp suffix.  The ISO flag takes precedence,
then human, then TrueNAS, else the compact default. -/
def snapshot_name (iso human truenas : Bool) (label : Label) (t : DateTime) : String :=
  labelText human label ++
    (if iso then isoSuffix t
     else if human then humanSuffix t
     else if truenas then truenasSuffix t
     else compactSuffix t)

def dtA : DateTime := ⟨2025, 10, 12, 14, 30, 0⟩

def dtB : DateTime := ⟨2025, 10, 12, 14, 31, 0⟩

/-! ### The environment: observable behaviour of the external collaborators -/

/-- One guest entry of the parsed registry file /etc/pve/.vmlist
(vmid key, node and type fields), in iteration order. -/
structure RegEntry where
  vmid : String
  node : String
  vtype : String
deriving DecidableEq

/-- One entry of the parsed /cluster/resources reply: numeric guest ID, node
and the semicolon-separated tag string (empty when absent). -/
structure ClusterVM where
  vmid : Int
  node : String
  tags : String
deriving DecidableEq

/-- The parsed result of the storage queries of fetch_storage_details:
rounded used fraction and the numeric guest IDs stored there. -/
structure StorageDetail where
  used_fraction : Rat
  vmids : List Int
deriving DecidableEq

/-- Observable actions of one run: external commands executed (the exact
argument vector handed to subprocess.Popen) and lines printed. -/
inductive Event where
  | exec (cmd : List String)
  | printLine (s : String)
deriving DecidableEq

/-- The environment of a run: the hostname, the PID lock file state, the
result of every external command (status and captured text), and the parsed
forms of the three external JSON documents the script reads (registry,
cluster resources, storage details) together with the parsed platform
version.  JSON decoding of external data is opaque to the script and is
modelled by these parsed results; an error value models the corresponding
SystemExit. -/
structure Env where
  nodeName : String
  pidFileExists : Bool
  pidFileContent : String
  run : List String → Bool × String
  registryParse : Except String (List RegEntry)
  clusterParse : Except String (List ClusterVM)
  storageDetails : Except String (List StorageDetail)
  pveVersion : Rat
  now : DateTime

/-- The parsed command line arguments (lines 343-369) after the argparse
defaults; vmid/tags lists are empty when the option is absent, label is
constrained by the argparse choices. -/
structure Args where
  autosnap : Bool
  snap : Bool
  vmid : List String
  tags : List String
  clean : Bool
  keep : Int
  label : Label
  date_iso : Bool
  date_human : Bool
  date_truenas : Bool
  exclude : List String
  exclude_tags : List String
  mute : Bool
  running : Bool
  includevmstate : Bool
  zfs_send_to : Option String
  dryrun : Bool
  useSudo : Bool
  force : Bool
  check_free_space : Bool

/-- run_command (lines 46-55): optional sudo insertion, then one blocking
subprocess call; the pair is the success flag with the captured text
(stdout on success, stderr on failure). -/
def run_command (env : Env) (useSudo : Bool) (command : List String)
    (forceNoSudo : Bool := false) : List Event × (Bool × String) :=
  let cmd := if useSudo && !forceNoSudo then "sudo" :: command else command
  ([Event.exec cmd], env.run cmd)

/-- Python str.strip() with no argument. -/
def pyStrip (s : String) : String :=
  ⟨((s.data.dropWhile isPySpace).reverse.dropWhile isPySpace).reverse⟩

/-- Python s.split(sep, 1): cut at the first occurrence of sep; none when
sep does not occur (the one-element list case). -/
def pySplitOnce (sep : String) (s : String) : Option (String × String) :=
  match pySplitOn sep s with
  | [_] => none
  | x :: rest => some (x, String.intercalate sep rest)
  | [] => none

/-- Python dict assignment d[k] = v: replace in place when the key exists,
append otherwise (insertion order preserved). -/
def dictInsert {α : Type} (d : List (String × α)) (k : String) (v : α) :
    List (String × α) :=
  if d.any (fun p => p.1 == k) then
    d.map (fun p => if p.1 == k then (k, v) else p)
  else d ++ [(k, v)]

/-- Python dict.pop(k, None). -/
def dictPop {α : Type} (d : List (String × α)) (k : String) :
    List (String × α) :=
  d.filter (fun p => p.1 != k)

/-- Python str.lower() (ASCII; the status output is ASCII). -/
def pyLower (s : String) : String := ⟨s.data.map Char.toLower⟩

/-- Python substring containment (the in operator on str). -/
def strContains (s sub : String) : Bool := decide (sub.data <:+: s.data)

/-- Lines 93-99: parse config output into a dict: per line, strip, cut at
the first colon-space, strip both parts. -/
def parseConfig (msg : String) : List (String × String) :=
  (pySplitlines msg).foldl
    (fun cfg line =>
      match pySplitOnce ": " (pyStrip line) with
      | some (k, v) => dictInsert cfg (pyStrip k) (pyStrip v)
      | none => cfg)
    []

/-- get_pve_config (lines 88-99); a failing config command raises. -/
def get_pve_config (env : Env) (a : Args) (vmid virtualization : String) :
    List Event × Except String (List (String × String)) :=
  let (ev, r) := run_command env a.useSudo [virtualization, "config", vmid]
  if r.1 then (ev, .ok (parseConfig r.2)) else (ev, .error r.2)

/-- vm_is_template (lines 79-85). -/
def vm_is_template (env : Env) (a : Args) (vmid virtualization : String) :
    List Event × Except String Bool :=
  match get_pve_config env a vmid virtualization with
  | (ev, .error e) => (ev, .error e)
  | (ev, .ok cfg) =>
    if cfg.lookup "template" = some "1" then
      (ev ++ (if !a.mute then
          [Event.printLine ("VM " ++ vmid ++ " - is a template, skipping...")]
        else []), .ok true)
    else (ev, .ok false)

/-- vm_is_stopped (lines 70-76). -/
def vm_is_stopped (env : Env) (a : Args) (vmid virtualization : String) :
    List Event × Bool :=
  let (ev, r) := run_command env a.useSudo [virtualization, "status", vmid]
  if r.1 && strContains (pyLower r.2) "stopped" then
    (ev ++ (if !a.mute then
        [Event.printLine ("VM " ++ vmid ++ " - is stopped, skipping...")]
      else []), true)
  else (ev, false)

/-- fetch_storage_details (lines 116-156): the empty dict without the flag;
otherwise the node storage query runs and the parsed result of the storage
and per-storage content queries comes from the environment (any failure of
those queries or of the JSON decoding raises). -/
def fetch_storage_details (env : Env) (a : Args) :
    List Event × Except String (List StorageDetail) :=
  if !a.check_free_space then ([], .ok [])
  else
    let (ev, r) := run_command env a.useSudo
      ["pvesh", "get", "/nodes/" ++ env.nodeName ++ "/storage",
       "--content", "rootdir", "--enabled", "1", "--output-format", "json"]
    if r.1 then (ev, env.storageDetails) else (ev, .error r.2)

/-- Line 187: a guest is vetoed when some storage is at 99% or more and
lists its numeric ID (int of the registry key, modelled by String.toInt?). -/
def storage_skip (storages : List StorageDetail) (vmid : String) : Bool :=
  storages.any (fun s => decide ((99 : Rat) / 100 ≤ s.used_fraction)
    && (vmid.toInt?.map (fun i => s.vmids.contains i)).getD false)

/-- The registry loop of get_vmids (lines 170-191): keep local, non-excluded
guests of known type that are not templates, not stopped in only-running
mode, and not vetoed by storage usage, in registry order. -/
def get_vmids_go (env : Env) (a : Args) (exclude : List String)
    (storages : List StorageDetail) :
    List RegEntry → List Event × Except String (List (String × String))
  | [] => ([], .ok [])
  | e :: rest =>
    if e.node == env.nodeName && !exclude.contains e.vmid then
      match (if e.vtype == "lxc" then some "pct"
             else if e.vtype == "qemu" then some "qm" else none) with
      | none => ([], .error ("Unknown virtualization type: " ++ e.vtype))
      | some virt =>
        match vm_is_template env a e.vmid virt with
        | (ev, .error msg) => (ev, .error msg)
        | (ev, .ok true) =>
          let (ev3, r3) := get_vmids_go env a exclude storages rest
          (ev ++ ev3, r3)
        | (ev, .ok false) =>
          let (ev2, stopped) :=
            if a.running then vm_is_stopped env a e.vmid virt else ([], false)
          if stopped then
            let (ev3, r3) := get_vmids_go env a exclude storages rest
            (ev ++ ev2 ++ ev3, r3)
          else if storage_skip storages e.vmid then
            let evp := if !a.mute then
                [Event.printLine ("VM " ++ e.vmid
                  ++ " - Storage usage is above 99%, skipping...")]
              else []
            let (ev3, r3) := get_vmids_go env a exclude storages rest
            (ev ++ ev2 ++ evp ++ ev3, r3)
          else
            match get_vmids_go env a exclude storages rest with
            | (ev3, .error msg) => (ev ++ ev2 ++ ev3, .error msg)
            | (ev3, .ok r3) => (ev ++ ev2 ++ ev3, .ok ((e.vmid, virt) :: r3))
    else get_vmids_go env a exclude storages rest

/-- get_vmids (lines 159-193): the registry read (a cat call), the JSON
decode (modelled by env.registryParse), the storage details, then the loop. -/
def get_vmids (env : Env) (a : Args) (exclude : List String) :
    List Event × Except String (List (String × String)) :=
  let (ev, r) := run_command env a.useSudo ["cat", "/etc/pve/.vmlist"]
  if !r.1 then (ev, .error r.2)
  else
    match env.registryParse with
    | .error e => (ev, .error e)
    | .ok registry =>
      match fetch_storage_details env a with
      | (ev2, .error e) => (ev ++ ev2, .error e)
      | (ev2, .ok storages) =>
        let (ev3, r3) := get_vmids_go env a exclude storages registry
        (ev ++ ev2 ++ ev3, r3)

/-- The cluster loop of get_vmids_by_tags (lines 206-220): collect, over the
local guests in order, those whose tag set meets the include list and those
whose tag set meets the exclude list. -/
def get_vmids_by_tags_go (node : String) (tags exclude_tags : List String) :
    List ClusterVM → List String × List String
  | [] => ([], [])
  | vm :: rest =>
    let (inc, exc) := get_vmids_by_tags_go node tags exclude_tags rest
    if vm.node == node then
      let vm_tags := pySplitChar ';' vm.tags
      ((if !tags.isEmpty && tags.any (fun tag => vm_tags.contains tag) then
          toString vm.vmid :: inc else inc),
       (if !exclude_tags.isEmpty
            && exclude_tags.any (fun tag => vm_tags.contains tag) then
          toString vm.vmid :: exc else exc))
    else (inc, exc)

/-- get_vmids_by_tags (lines 196-220); the JSON decode of the cluster
resources reply is modelled by env.clusterParse. -/
def get_vmids_by_tags (env : Env) (a : Args) (tags exclude_tags : List String) :
    List Event × Except String (List String × List String) :=
  let (ev, r) := run_command env a.useSudo
    ["pvesh", "get", "/cluster/resources", "--type", "vm",
     "--output-format", "json"]
  if !r.1 then (ev, .error r.2)
  else
    match env.clusterParse with
    | .error e => (ev, .error e)
    | .ok cluster =>
      (ev, .ok (get_vmids_by_tags_go env.nodeName tags exclude_tags cluster))

/-- get_proxmox_version (lines 58-67); the numeric parse of the version
string is modelled by env.pveVersion. -/
def get_proxmox_version (env : Env) (a : Args) :
    List Event × Except String Rat :=
  let (ev, r) := run_command env a.useSudo ["pveversion"] true
  if r.1 then (ev, .ok env.pveVersion) else (ev, .error r.2)

/-- The explicit-ID loop of get_filtered_vmids (lines 229-234): pick each
listed ID from the enumerated set, failing on the first one that is excluded
or absent. -/
def pickExplicit (all_vmid : List (String × String)) (exclude : List String) :
    List String → List (String × String) → Except String (List (String × String))
  | [], picked => .ok picked
  | v :: rest, picked =>
    match (if exclude.contains v then none else all_vmid.lookup v) with
    | some virt => pickExplicit all_vmid exclude rest (dictInsert picked v virt)
    | none => .error ("VM " ++ v ++ " not found.")

/-- The include loop of get_filtered_vmids (lines 243-248). -/
def pickIncludes (all_vmid : List (String × String)) :
    List String → List (String × String) → Except String (List (String × String))
  | [], picked => .ok picked
  | v :: rest, picked =>
    match all_vmid.lookup v with
    | some virt => pickIncludes all_vmid rest (dictInsert picked v virt)
    | none => .error ("VM " ++ v ++ " not found.")

/-- The explicit-selection stage of get_filtered_vmids (lines 225-234):
the whole enumerated set for the sentinel, the picked listed IDs otherwise,
the empty dict when no explicit IDs were given. -/
def pickStage (all_vmid : List (String × String))
    (vmids exclude : List String) : Except String (List (String × String)) :=
  if !vmids.isEmpty && vmids.contains "all" then .ok all_vmid
  else if !vmids.isEmpty then pickExplicit all_vmid exclude vmids []
  else .ok []

/-- The tag-filtering stage of get_filtered_vmids (lines 236-253): version
gate (the comparison version at least 7.3 of line 238 is written as the
integer cross-multiplication 73 * den at most num * 10, equivalent for the
positive denominators of parsed versions), cluster tag query, inclusion
(each include-tagged guest must be in the enumerated set), then the
exclusion pops, exclusion last. -/
def tagStage (env : Env) (a : Args)
    (all_vmid picked : List (String × String))
    (tags exclude_tags : List String) :
    List Event × Except String (List (String × String)) :=
  if !tags.isEmpty || !exclude_tags.isEmpty then
    match get_proxmox_version env a with
    | (evv, .error e) => (evv, .error e)
    | (evv, .ok ver) =>
      if !(decide (73 * (ver.den : Int) ≤ ver.num * 10)) then
        (evv, .error ("Proxmox version " ++ toString ver
          ++ " does not support tags."))
      else
        match get_vmids_by_tags env a tags exclude_tags with
        | (evt, .error e) => (evv ++ evt, .error e)
        | (evt, .ok (inc, exc)) =>
          match (if !tags.isEmpty then pickIncludes all_vmid inc picked
                 else .ok picked) with
          | .error e => (evv ++ evt, .error e)
          | .ok picked2 =>
            (evv ++ evt,
             .ok (if !exclude_tags.isEmpty then exc.foldl dictPop picked2
                  else picked2))
  else ([], .ok picked)

/-- get_filtered_vmids (lines 223-254): enumerate, pick, tag-filter. -/
def get_filtered_vmids (env : Env) (a : Args)
    (vmids exclude tags exclude_tags : List String) :
    List Event × Except String (List (String × String)) :=
  match get_vmids env a exclude with
  | (ev, .error e) => (ev, .error e)
  | (ev, .ok all_vmid) =>
    match pickStage all_vmid vmids exclude with
    | .error e => (ev, .error e)
    | .ok picked =>
      let (ev2, r2) := tagStage env a all_vmid picked tags exclude_tags
      (ev ++ ev2, r2)

/-! ### The executors: create, prune, replicate -/

def joinSpace (l : List String) : String := String.intercalate " " l

/-- The composed snapshot-create argument vector (lines 272-275). -/
def create_params (a : Args) (vmid virt snapshotName : String) : List String :=
  [virt, "snapshot", vmid, snapshotName, "--description", "autosnap"]
    ++ (if virt == "qm" && a.includevmstate then ["--vmstate"] else [])

/-- create_snapshot (lines 257-285); env.now models the shifted timestamp
datetime.now() + timedelta(seconds=1) of line 262.  Dry-run prints the
composed command (with the sudo prefix it would carry); live mode runs it
and reports per-guest success or failure without raising. -/
def create_snapshot (env : Env) (a : Args) (vmid virt : String)
    (label : Label) : List Event :=
  let snapshotName :=
    snapshot_name a.date_iso a.date_human a.date_truenas label env.now
  let params := create_params a vmid virt snapshotName
  if a.dryrun then
    [Event.printLine (joinSpace (if a.useSudo then "sudo" :: params else params))]
  else
    let (ev, r) := run_command env a.useSudo params
    ev ++ (if r.1 then
        (if !a.mute then
          [Event.printLine ("VM " ++ vmid ++ " - Creating snapshot " ++ snapshotName)]
         else [])
      else [Event.printLine ("VM " ++ vmid ++ " - " ++ r.2)])

/-- The composed delsnapshot argument vector (lines 303-305). -/
def del_params (a : Args) (vmid virt old : String) : List String :=
  [virt, "delsnapshot", vmid, old]
    ++ (if a.force then ["--force", "true"] else [])

/-- One deletion of the loop of lines 302-314. -/
def del_one (env : Env) (a : Args) (vmid virt old : String) : List Event :=
  let params := del_params a vmid virt old
  if a.dryrun then
    [Event.printLine (joinSpace (if a.useSudo then "sudo" :: params else params))]
  else
    let (ev, r) := run_command env a.useSudo params
    ev ++ (if r.1 then
        (if !a.mute then
          [Event.printLine ("VM " ++ vmid ++ " - Removing snapshot " ++ old)]
         else [])
      else [Event.printLine ("VM " ++ vmid ++ " - " ++ r.2)])

/-- remove_snapshot (lines 288-314): list the snapshots (fatal on failure;
the error case of the collection also covers the IndexError a token-less
output line raises), select the old ones, delete each in order. -/
def remove_snapshot (env : Env) (a : Args) (vmid virt : String)
    (label : Label) (keep : Int) : List Event × Except String Unit :=
  let (ev, r) := run_command env a.useSudo [virt, "listsnapshot", vmid]
  if !r.1 then (ev, .error r.2)
  else
    match collectSnapshots label.str (pySplitlines r.2) with
    | none => (ev, .error "IndexError: list index out of range")
    | some listsnapshot =>
      (ev ++ ((old_snapshots keep listsnapshot).map
          (del_one env a vmid virt)).flatten, .ok ())

/-- Python str.startswith on code points. -/
def pyStartsWith (s pre : String) : Bool := pre.data.isPrefixOf s.data

/-- Python str.endswith on code points. -/
def pyEndsWith (s suf : String) : Bool := suf.data.isSuffixOf s.data

/-- Python s[n:] on code points. -/
def pyDrop (n : Nat) (s : String) : String := ⟨s.data.drop n⟩

/-- get_zfs_volume (lines 102-113); an empty resolved path raises IndexError
at the zfsvol[0] access. -/
def get_zfs_volume (env : Env) (a : Args) (proxmox_fs virt : String) :
    List Event × Except String String :=
  let (ev, r) := run_command env a.useSudo
    ["pvesm", "path", (pySplitOn "," proxmox_fs).headD ""]
  if !r.1 then (ev, .error r.2)
  else
    let zfsvol := pyStrip r.2
    if virt == "qm" && pyStartsWith zfsvol "/dev/zvol/" then
      (ev, .ok (pyDrop 10 zfsvol))
    else if zfsvol = "" then
      (ev, .error "IndexError: string index out of range")
    else if pyStartsWith zfsvol "/" then (ev, .ok (pyDrop 1 zfsvol))
    else (ev, .ok zfsvol)

/-- posixpath.join of two components (line 328). -/
def pyPathJoin (a b : String) : String :=
  if pyStartsWith b "/" then b
  else if a = "" then b
  else if pyEndsWith a "/" then a ++ b
  else a ++ "/" ++ b

/-- re.fullmatch of PREFIX[0-9]+ against a config key. -/
def fullmatchPrefixNum (p : String) (k : String) : Bool :=
  p.data.isPrefixOf k.data && !(k.data.drop p.data.length).isEmpty
    && (k.data.drop p.data.length).all Char.isDigit

/-- The volume-eligibility test of lines 322-325. -/
def volume_eligible (k v proxmox_vol : String) : Bool :=
  k == "rootfs"
  || (fullmatchPrefixNum "mp" k && strContains v "backup=1")
  || ((fullmatchPrefixNum "ide" k || fullmatchPrefixNum "sata" k
       || fullmatchPrefixNum "scsi" k || fullmatchPrefixNum "virtio" k)
      && !strContains v "backup=0" && proxmox_vol != "none")
  || fullmatchPrefixNum "efidisk" k || fullmatchPrefixNum "tpmstate" k

/-- The body of the zfs_send loop for one config item (lines 320-338). -/
def zfs_send_one (env : Env) (a : Args) (vmid virt dest k v : String) :
    List Event × Except String Unit :=
  let proxmox_vol := (pySplitOn "," v).headD ""
  if volume_eligible k v proxmox_vol then
    match get_zfs_volume env a proxmox_vol virt with
    | (ev, .error e) => (ev, .error e)
    | (ev, .ok localzfs) =>
      match (pySplitOn ":" proxmox_vol).get? 1 with
      | none => (ev, .error "IndexError: list index out of range")
      | some volname =>
        let remotezfs := pyPathJoin dest volname
        let params := ["/usr/sbin/syncoid", localzfs, remotezfs,
          "--identifier=autosnap", "--no-privilege-elevation"]
        if a.dryrun then (ev ++ [Event.printLine (joinSpace params)], .ok ())
        else
          let (ev2, r) := run_command env a.useSudo params true
          (ev ++ ev2 ++ (if r.1 then
              (if !a.mute then
                [Event.printLine ("VM " ++ vmid ++ " - syncoid to " ++ dest)]
               else [])
            else [Event.printLine ("VM " ++ vmid ++ " - syncoid FAIL: " ++ r.2)]),
           .ok ())
  else ([], .ok ())

def zfs_send_go (env : Env) (a : Args) (vmid virt dest : String) :
    List (String × String) → List Event × Except String Unit
  | [] => ([], .ok ())
  | (k, v) :: rest =>
    match zfs_send_one env a vmid virt dest k v with
    | (ev, .error e) => (ev, .error e)
    | (ev, .ok _) =>
      let (ev2, r2) := zfs_send_go env a vmid virt dest rest
      (ev ++ ev2, r2)

/-- zfs_send (lines 317-338): read the guest config (fatal on failure),
walk its items and replicate each backup-eligible volume. -/
def zfs_send (env : Env) (a : Args) (vmid virt dest : String) :
    List Event × Except String Unit :=
  match get_pve_config env a vmid virt with
  | (ev, .error e) => (ev, .error e)
  | (ev, .ok cfg) =>
    let (ev2, r2) := zfs_send_go env a vmid virt dest cfg
    (ev ++ ev2, r2)

/-! ### main and the process exit status -/

/-- The per-guest action loop of main: an exception raised by an action
aborts the remaining guests. -/
def foldActs (f : String × String → List Event × Except String Unit) :
    List (String × String) → List Event × Except String Unit
  | [] => ([], .ok ())
  | g :: rest =>
    match f g with
    | (ev, .error e) => (ev, .error e)
    | (ev, .ok _) =>
      let (ev2, r2) := foldActs f rest
      (ev ++ ev2, r2)

/-- Python truthiness of the zfs_send_to option (an empty string is falsy,
so it falls through to the help branch). -/
def zfsDest (a : Args) : Option String :=
  match a.zfs_send_to with
  | some d => if d = "" then none else some d
  | none => none

/-- main (lines 341-407) under the running decorator (lines 26-43): the
observable events of a whole run together with the process exit status.
Lock contention prints the holder and exits 1; a missing selection
criterion is an argparse usage error, which exits 2; any SystemExit raised
later prints its message and exits 1 (an uncaught IndexError also exits 1);
otherwise the run exits 0, whatever the per-guest action results were. -/
def mainRun (env : Env) (a : Args) : List Event × Nat :=
  if env.pidFileExists then
    ([Event.printLine ("Script already running under PID "
      ++ env.pidFileContent ++ ", skipping execution.")], 1)
  else if a.vmid.isEmpty && a.tags.isEmpty && a.exclude_tags.isEmpty then
    ([Event.printLine
      "At least one of --vmid or --tags or --exclude-tags is required."], 2)
  else
    match get_filtered_vmids env a a.vmid a.exclude a.tags a.exclude_tags with
    | (ev, .error e) => (ev ++ [Event.printLine e], 1)
    | (ev, .ok picked) =>
      let (ev2, r) :=
        if a.snap then
          foldActs (fun g =>
            (create_snapshot env a g.1 g.2 a.label, Except.ok ())) picked
        else if a.clean then
          foldActs (fun g => remove_snapshot env a g.1 g.2 a.label a.keep) picked
        else if a.autosnap then
          foldActs (fun g =>
            let ev1 := create_snapshot env a g.1 g.2 a.label
            let (ev2, r2) := remove_snapshot env a g.1 g.2 a.label a.keep
            (ev1 ++ ev2, r2)) picked
        else
          match zfsDest a with
          | some dest => foldActs (fun g => zfs_send env a g.1 g.2 dest) picked
          | none => ([Event.printLine "usage: proxmox-autosnap.py"], .ok ())
      match r with
      | .error e => (ev ++ ev2 ++ [Event.printLine e], 1)
      | .ok _ => (ev ++ ev2, 0)

/-- A concrete argument record shared by the witnesses below (defaults of
the argparse surface with an explicit all-selection). -/
def argsW : Args :=
  { autosnap := false, snap := false, vmid := ["all"], tags := [],
    clean := false, keep := 30, label := Label.daily, date_iso := false,
    date_human := false, date_truenas := false, exclude := [],
    exclude_tags := [], mute := false, running := false,
    includevmstate := false, zfs_send_to := none, dryrun := false,
    useSudo := false, force := false, check_free_space := false }

def clusterC6 : List ClusterVM :=
  [⟨100, "pve", "prod"⟩, ⟨101, "pve", "prod;skip"⟩, ⟨102, "other", "prod"⟩]

def envC6 : Env :=
  { nodeName := "pve", pidFileExists := false, pidFileContent := "",
    run := fun _ => (true, ""), registryParse := .ok [],
    clusterParse := .ok clusterC6, storageDetails := .ok [],
    pveVersion := 8, now := ⟨2025, 10, 12, 14, 30, 0⟩ }

def allC6 : List (String × String) := [("100", "pct"), ("101", "pct")]

def pickedC6 : List (String × String) := [("100", "pct")]

/-- The virtualization string the registry loop assigns to a guest of known
type. -/
def virtOf (e : RegEntry) : String := if e.vtype == "lxc" then "pct" else "qm"

def regC9 : List RegEntry := [⟨"55", "pve", "lxc"⟩, ⟨"100", "pve", "lxc"⟩]

def envC9 : Env :=
  { nodeName := "pve", pidFileExists := false, pidFileContent := "",
    run := fun cmd => if cmd = ["pct", "config", "55"] then
        (true, "template: 1\nhostname: foo")
      else (true, ""),
    registryParse := .ok regC9, clusterParse := .ok [],
    storageDetails := .ok [], pveVersion := 8,
    now := ⟨2025, 10, 12, 14, 30, 0⟩ }

def argsNC : Args :=
  { argsW with vmid := [], snap := true }

/-! ### The mutating-command classifier -/

/-- The sudo prefix a command receives (line 48, and the dry-run inserts of
lines 278 and 307). -/
def sudoWrap (s : Bool) (cmd : List String) : List String :=
  if s then "sudo" :: cmd else cmd

/-- A mutating external command: a snapshot or delsnapshot subcommand, or a
syncoid replication, under an optional sudo prefix.  Every other observable
event (a query command or a printed line) leaves the system unchanged. -/
def isMutating : Event → Bool
  | Event.exec cmd =>
    let body := if cmd.headD "" == "sudo" then cmd.drop 1 else cmd
    body.headD "" == "/usr/sbin/syncoid"
      || (body.drop 1).headD "" == "snapshot"
      || (body.drop 1).headD "" == "delsnapshot"
  | Event.printLine _ => false

def noMut (l : List Event) : Bool := l.all (fun e => !isMutating e)

def argsC3 : Args := { argsW with vmid := ["999"] }

def argsC4 : Args := { argsW with dryrun := true, snap := true }

def envC4 : Env :=
  { envC9 with run := fun cmd =>
      if cmd.headD "" == "pvesm" then
        (true, "/dev/zvol/rpool/data/vm-100-disk-0\n")
      else (true, "") }

/-! ### Theorems -/

/-! ### Facts about the retention selector -/

theorem insertDescByKey_length (x : String) (l : List String) :
    (insertDescByKey x l).length = l.length + 1 := by
  induction l with
  | nil => rfl
  | cons y ys ih =>
    unfold insertDescByKey
    split
    · simpa using ih
    · rfl

theorem sortedDescByKey_length (l : List String) :
    (sortedDescByKey l).length = l.length := by
  induction l with
  | nil => rfl
  | cons x xs ih => simp [sortedDescByKey, insertDescByKey_length, ih]

theorem enumFrom_filter_gt (keep : Int) : ∀ (l : List String) (n : Nat),
    ((List.enumFrom n l).filter (fun p => decide (keep < (p.1 : Int)))).map
        Prod.snd
      = l.drop (keep + 1 - n).toNat := by
  intro l
  induction l with
  | nil => intro n; simp
  | cons x xs ih =>
    intro n
    rw [List.enumFrom_cons]
    by_cases h : keep < (n : Int)
    · have h1 : (keep + 1 - (n : Int)).toNat = 0 := by omega
      have h2 : (keep + 1 - ((n : Int) + 1)).toNat = 0 := by omega
      have ih2 := ih (n + 1)
      push_cast at ih2
      rw [h2] at ih2
      simp [h, h1, ih2]
    · have h1 : (keep + 1 - (n : Int)).toNat
          = (keep + 1 - ((n : Int) + 1)).toNat + 1 := by omega
      have ih2 := ih (n + 1)
      push_cast at ih2
      simp [h, h1, ih2]

theorem old_snapshots_eq_drop (keep : Int) (l : List String) (hk : 0 ≤ keep) :
    old_snapshots keep l = (sortedDescByKey l).drop keep.toNat := by
  unfold old_snapshots
  split
  · rw [enumFrom_filter_gt]
    congr 1
    omega
  · rename_i hneg
    rcases Decidable.em (l = []) with h | h
    · subst h; simp [sortedDescByKey]
    · have hlen : (l.length : Int) ≤ keep := by
        by_contra hlt
        exact hneg ⟨h, by omega⟩
      rw [List.drop_eq_nil_of_le]
      rw [sortedDescByKey_length]
      omega

/-- C1: for every listsnapshot output and every non-negative keep-count, the
retention selector designates as old exactly max(0, count - keep) of the names
matching the label pattern, namely all except the keep most recent under the
descending sort; zero matches and match-count at most keep are no-ops, and
keep = 0 targets every matching name. -/
theorem C1_retention_selector (label : String) (keep : Int)
    (lines l : List String)
    (hc : collectSnapshots label lines = some l) (hk : 0 ≤ keep) :
    old_snapshots keep l = (sortedDescByKey l).drop keep.toNat ∧
    ((old_snapshots keep l).length : Int) = max 0 ((l.length : Int) - keep) := by
  have hd := old_snapshots_eq_drop keep l hk
  refine ⟨hd, ?_⟩
  rw [hd, List.length_drop, sortedDescByKey_length]
  omega

theorem C1_retention_selector_witness :
    collectSnapshots "daily" c1Lines = some c1Names ∧ 0 ≤ (1 : Int) ∧
      (old_snapshots 1 c1Names = (sortedDescByKey c1Names).drop (1 : Int).toNat ∧
        ((old_snapshots 1 c1Names).length : Int)
          = max 0 ((c1Names.length : Int) - 1)) :=
  ⟨by decide, by decide,
    C1_retention_selector "daily" 1 c1Lines c1Names (by decide) (by decide)⟩

/-- C10: a negative keep-count makes the retention selector behave exactly
like keep-count zero: every matching name is targeted when at least one name
matches, and zero matches stay a no-op. -/
theorem C10_negative_keep (keep : Int) (hneg : keep < 0) (l : List String) :
    old_snapshots keep l = old_snapshots 0 l := by
  unfold old_snapshots
  rcases Decidable.em (l = []) with h | h
  · subst h; simp
  · have h0 : 0 < (l.length : Int) := by
      have := List.length_pos.mpr h
      omega
    have hkeep : keep < (l.length : Int) := by omega
    rw [if_pos ⟨h, hkeep⟩, if_pos ⟨h, h0⟩, enumFrom_filter_gt, enumFrom_filter_gt]
    congr 1
    omega

theorem C10_negative_keep_witness :
    (-5 : Int) < 0 ∧
      old_snapshots (-5) ["autodaily251010101010", "autodaily251012121212"]
        = old_snapshots 0 ["autodaily251010101010", "autodaily251012121212"] :=
  ⟨by decide, C10_negative_keep (-5) (by decide) _⟩

/-! ### Lexicographic comparison of zero-padded digit strings -/

theorem digitChar_lt_iff {a b : Nat} (ha : a < 10) (hb : b < 10) :
    Nat.digitChar a < Nat.digitChar b ↔ a < b := by
  interval_cases a <;> interval_cases b <;> decide

/-- Comparison of two strings, as Python compares them: lexicographically by
code point, with a strict prefix comparing smaller.  The ambient String order
is equivalent to this lexicographic order on the character lists. -/
theorem string_lt_iff_data_lt (s t : String) : s < t ↔ s.data < t.data :=
  String.lt_iff_toList_lt

theorem digitChar_eq_iff {a b : Nat} (ha : a < 10) (hb : b < 10) :
    Nat.digitChar a = Nat.digitChar b ↔ a = b := by
  interval_cases a <;> interval_cases b <;> decide

theorem list_lex_cons_iff {a b : Char} {as bs : List Char} :
    a :: as < b :: bs ↔ a < b ∨ (a = b ∧ as < bs) := by
  constructor
  · intro h
    cases h with
    | cons h => exact Or.inr (by exact ⟨rfl, h⟩)
    | rel h => exact Or.inl h
  · rintro (h | ⟨rfl, h⟩)
    · exact List.Lex.rel h
    · exact List.Lex.cons h

theorem list_lex_append_iff (p : List Char) {u v : List Char} :
    p ++ u < p ++ v ↔ u < v := by
  induction p with
  | nil => exact Iff.rfl
  | cons c cs ih =>
    rw [List.cons_append, List.cons_append, list_lex_cons_iff]
    simp [lt_irrefl c, ih]

theorem nat_lt_iff_div_lt (p n1 n2 : Nat) (hp : 0 < p) :
    n1 < n2 ↔ (n1 / p < n2 / p ∨ (n1 / p = n2 / p ∧ n1 % p < n2 % p)) := by
  have e1 := Nat.div_add_mod n1 p
  have e2 := Nat.div_add_mod n2 p
  constructor
  · intro h
    rcases Nat.lt_trichotomy (n1 / p) (n2 / p) with h' | h' | h'
    · exact Or.inl h'
    · right
      refine ⟨h', ?_⟩
      rw [h'] at e1
      have hsum : p * (n2 / p) + n1 % p < p * (n2 / p) + n2 % p := by
        rw [e1, e2]; exact h
      exact Nat.lt_of_add_lt_add_left hsum
    · have hle : n1 / p ≤ n2 / p := Nat.div_le_div_right (Nat.le_of_lt h)
      exact ((Nat.lt_irrefl _ (Nat.lt_of_lt_of_le h' hle)).elim)
  · rintro (h' | ⟨h', hm⟩)
    · by_contra hc
      have hle : n2 ≤ n1 := by omega
      have : n2 / p ≤ n1 / p := Nat.div_le_div_right hle
      exact Nat.lt_irrefl _ (Nat.lt_of_lt_of_le h' this)
    · rw [h'] at e1
      calc n1 = p * (n2 / p) + n1 % p := e1.symm
        _ < p * (n2 / p) + n2 % p := Nat.add_lt_add_left hm _
        _ = n2 := e2

theorem digitChars_cons (a : Nat) (l : List Nat) :
    digitChars (a :: l) = Nat.digitChar a :: digitChars l := rfl

theorem digitChars_append (l1 l2 : List Nat) :
    digitChars (l1 ++ l2) = digitChars l1 ++ digitChars l2 := List.map_append _ l1 l2

theorem padDigits_append_lt_iff : ∀ (w : Nat) {n1 n2 : Nat} (r1 r2 : List Char),
    n1 < 10 ^ w → n2 < 10 ^ w →
    (digitChars (padDigits w n1) ++ r1 < digitChars (padDigits w n2) ++ r2 ↔
      n1 < n2 ∨ (n1 = n2 ∧ r1 < r2))
  | 0, n1, n2, r1, r2, h1, h2 => by
    have hn1 : n1 = 0 := by omega
    have hn2 : n2 = 0 := by omega
    subst hn1; subst hn2
    simp [padDigits, digitChars]
  | w + 1, n1, n2, r1, r2, h1, h2 => by
    have hp : 0 < (10 : Nat) ^ w := Nat.pos_pow_of_pos w (by omega)
    have hd1 : n1 / 10 ^ w < 10 := by
      apply Nat.div_lt_of_lt_mul
      rw [pow_succ] at h1
      exact h1
    have hd2 : n2 / 10 ^ w < 10 := by
      apply Nat.div_lt_of_lt_mul
      rw [pow_succ] at h2
      exact h2
    have ih := padDigits_append_lt_iff w r1 r2 (Nat.mod_lt n1 hp) (Nat.mod_lt n2 hp)
    simp only [padDigits, digitChars_cons, List.cons_append]
    rw [list_lex_cons_iff, digitChar_lt_iff hd1 hd2, digitChar_eq_iff hd1 hd2, ih]
    have hlt := nat_lt_iff_div_lt (10 ^ w) n1 n2 hp
    have heq : n1 = n2 ↔ (n1 / 10 ^ w = n2 / 10 ^ w ∧ n1 % 10 ^ w = n2 % 10 ^ w) := by
      constructor
      · rintro rfl; exact ⟨rfl, rfl⟩
      · rintro ⟨hdq, hmq⟩
        have e1 := Nat.div_add_mod n1 (10 ^ w)
        have e2 := Nat.div_add_mod n2 (10 ^ w)
        rw [hdq, hmq] at e1
        exact e1.symm.trans e2
    constructor
    · rintro (hdd | ⟨hde, (hmm | ⟨hme, hr⟩)⟩)
      · exact Or.inl (hlt.mpr (Or.inl hdd))
      · exact Or.inl (hlt.mpr (Or.inr ⟨hde, hmm⟩))
      · exact Or.inr ⟨heq.mpr ⟨hde, hme⟩, hr⟩
    · rintro (hn | ⟨hee, hr⟩)
      · rcases hlt.mp hn with hdd | ⟨hde, hmm⟩
        · exact Or.inl hdd
        · exact Or.inr ⟨hde, Or.inl hmm⟩
      · rcases heq.mp hee with ⟨hde, hme⟩
        exact Or.inr ⟨hde, Or.inr ⟨hme, hr⟩⟩

theorem padDigits_split : ∀ (w1 : Nat) {w2 a b : Nat}, a < 10 ^ w1 → b < 10 ^ w2 →
    padDigits (w1 + w2) (a * 10 ^ w2 + b) = padDigits w1 a ++ padDigits w2 b
  | 0, w2, a, b, ha, hb => by
    have ha0 : a = 0 := by omega
    subst ha0
    rw [Nat.zero_add]
    simp [padDigits]
  | w1 + 1, w2, a, b, ha, hb => by
    have hp1 : 0 < (10 : Nat) ^ w1 := Nat.pos_pow_of_pos w1 (by omega)
    have hp12 : 0 < (10 : Nat) ^ (w1 + w2) := Nat.pos_pow_of_pos _ (by omega)
    have hamod : a % 10 ^ w1 < 10 ^ w1 := Nat.mod_lt a hp1
    have hr : (a % 10 ^ w1) * 10 ^ w2 + b < 10 ^ (w1 + w2) := by
      have step1 : (a % 10 ^ w1) * 10 ^ w2 + b < (a % 10 ^ w1 + 1) * 10 ^ w2 := by
        have := Nat.add_lt_add_left hb ((a % 10 ^ w1) * 10 ^ w2)
        calc (a % 10 ^ w1) * 10 ^ w2 + b
            < (a % 10 ^ w1) * 10 ^ w2 + 10 ^ w2 := this
          _ = (a % 10 ^ w1 + 1) * 10 ^ w2 := by ring
      have step2 : (a % 10 ^ w1 + 1) * 10 ^ w2 ≤ 10 ^ w1 * 10 ^ w2 :=
        Nat.mul_le_mul_right _ hamod
      calc (a % 10 ^ w1) * 10 ^ w2 + b
          < (a % 10 ^ w1 + 1) * 10 ^ w2 := step1
        _ ≤ 10 ^ w1 * 10 ^ w2 := step2
        _ = 10 ^ (w1 + w2) := (pow_add 10 w1 w2).symm
    have hN : a * 10 ^ w2 + b
        = 10 ^ (w1 + w2) * (a / 10 ^ w1) + ((a % 10 ^ w1) * 10 ^ w2 + b) := by
      have hda := Nat.div_add_mod a (10 ^ w1)
      calc a * 10 ^ w2 + b
          = (10 ^ w1 * (a / 10 ^ w1) + a % 10 ^ w1) * 10 ^ w2 + b := by rw [hda]
        _ = 10 ^ (w1 + w2) * (a / 10 ^ w1) + ((a % 10 ^ w1) * 10 ^ w2 + b) := by
            rw [pow_add]; ring
    have hw : w1 + 1 + w2 = (w1 + w2) + 1 := by omega
    rw [hw]
    simp only [padDigits]
    have hdiv : (a * 10 ^ w2 + b) / 10 ^ (w1 + w2) = a / 10 ^ w1 := by
      rw [hN, Nat.mul_add_div hp12, Nat.div_eq_of_lt hr, Nat.add_zero]
    have hmod : (a * 10 ^ w2 + b) % 10 ^ (w1 + w2) = (a % 10 ^ w1) * 10 ^ w2 + b := by
      rw [hN, Nat.mul_add_mod, Nat.mod_eq_of_lt hr]
    rw [hdiv, hmod, padDigits_split w1 hamod hb, List.cons_append]

/-! ### The timestamp suffixes as padded digit strings -/

theorem padDigits_mem_lt : ∀ (w : Nat) {n : Nat}, n < 10 ^ w →
    ∀ d ∈ padDigits w n, d < 10
  | 0, n, _, d, hd => by simp [padDigits] at hd
  | w + 1, n, hn, d, hd => by
    have hp : 0 < (10 : Nat) ^ w := Nat.pos_pow_of_pos w (by omega)
    simp only [padDigits, List.mem_cons] at hd
    rcases hd with rfl | hd
    · apply Nat.div_lt_of_lt_mul
      rw [pow_succ] at hn
      exact hn
    · exact padDigits_mem_lt w (Nat.mod_lt n hp) d hd

theorem digitChar_ne_underscore {d : Nat} (hd : d < 10) :
    (Nat.digitChar d != '_') = true := by
  interval_cases d <;> decide

theorem digitChar_isDigit {d : Nat} (hd : d < 10) :
    (Nat.digitChar d).isDigit = true := by
  interval_cases d <;> decide

theorem digitChar_isSuffixChar {d : Nat} (hd : d < 10) :
    isSuffixChar (Nat.digitChar d) = true := by
  interval_cases d <;> decide

theorem digitChars_filter {l : List Nat} (hl : ∀ d ∈ l, d < 10) :
    (digitChars l).filter (fun c => c != '_') = digitChars l := by
  induction l with
  | nil => rfl
  | cons a l ih =>
    rw [digitChars_cons, List.filter_cons]
    rw [digitChar_ne_underscore (hl a (by simp))]
    rw [ih (fun d hd => hl d (by simp [hd]))]
    simp

theorem digitChars_all_isDigit {l : List Nat} (hl : ∀ d ∈ l, d < 10) :
    (digitChars l).all Char.isDigit = true := by
  induction l with
  | nil => rfl
  | cons a l ih =>
    rw [digitChars_cons, List.all_cons, digitChar_isDigit (hl a (by simp))]
    rw [ih (fun d hd => hl d (by simp [hd]))]
    rfl

theorem digitChars_all_isSuffixChar {l : List Nat} (hl : ∀ d ∈ l, d < 10) :
    (digitChars l).all isSuffixChar = true := by
  induction l with
  | nil => rfl
  | cons a l ih =>
    rw [digitChars_cons, List.all_cons, digitChar_isSuffixChar (hl a (by simp))]
    rw [ih (fun d hd => hl d (by simp [hd]))]
    rfl

theorem padDigits_split100 {w : Nat} {a b : Nat} (ha : a < 10 ^ w) (hb : b < 100) :
    padDigits (w + 2) (a * 100 + b) = padDigits w a ++ padDigits 2 b := by
  have hb2 : b < 10 ^ 2 := by norm_num at hb ⊢; omega
  have h := padDigits_split w ha hb2
  have h100 : (10 : Nat) ^ 2 = 100 := by norm_num
  rw [h100] at h
  exact h

/-- Bounds on the compound field values of a datetime with in-range fields. -/
theorem compactVal_lt (t : DateTime)
    (hm : t.month < 100) (hd : t.day < 100) (hh : t.hour < 100)
    (hmi : t.minute < 100) (hs : t.second < 100) :
    compactVal t < 10 ^ 12 := by
  have hy : t.year % 100 < 100 := Nat.mod_lt _ (by omega)
  have : (10 : Nat) ^ 12 = 1000000000000 := by norm_num
  unfold compactVal
  omega

theorem chronoVal_lt (t : DateTime) (hy : t.year < 10000)
    (hm : t.month < 100) (hd : t.day < 100) (hh : t.hour < 100)
    (hmi : t.minute < 100) (hs : t.second < 100) :
    chronoVal t < 10 ^ 14 := by
  have : (10 : Nat) ^ 14 = 100000000000000 := by norm_num
  unfold chronoVal
  omega

theorem compact_data (t : DateTime)
    (hm : t.month < 100) (hd : t.day < 100) (hh : t.hour < 100)
    (hmi : t.minute < 100) (hs : t.second < 100) :
    (compactSuffix t).data = digitChars (padDigits 12 (compactVal t)) := by
  have hy : t.year % 100 < 100 := Nat.mod_lt _ (by omega)
  have p4 : (10 : Nat) ^ 4 = 10000 := by norm_num
  have p6 : (10 : Nat) ^ 6 = 1000000 := by norm_num
  have p8 : (10 : Nat) ^ 8 = 100000000 := by norm_num
  have p10 : (10 : Nat) ^ 10 = 10000000000 := by norm_num
  have h2 : t.year % 100 < 10 ^ 2 := by norm_num; omega
  have b2 : (t.year % 100) * 100 + t.month < 10 ^ 4 := by omega
  have b3 : ((t.year % 100) * 100 + t.month) * 100 + t.day < 10 ^ 6 := by omega
  have b4 : (((t.year % 100) * 100 + t.month) * 100 + t.day) * 100 + t.hour
      < 10 ^ 8 := by omega
  have b5 : ((((t.year % 100) * 100 + t.month) * 100 + t.day) * 100 + t.hour)
      * 100 + t.minute < 10 ^ 10 := by omega
  show _ = digitChars (padDigits (10 + 2) (compactVal t))
  unfold compactVal
  rw [padDigits_split100 b5 hs]
  show _ = digitChars (padDigits (8 + 2) _ ++ _)
  rw [padDigits_split100 b4 hmi]
  show _ = digitChars ((padDigits (6 + 2) _ ++ _) ++ _)
  rw [padDigits_split100 b3 hh]
  show _ = digitChars (((padDigits (4 + 2) _ ++ _) ++ _) ++ _)
  rw [padDigits_split100 b2 hd]
  show _ = digitChars ((((padDigits (2 + 2) _ ++ _) ++ _) ++ _) ++ _)
  rw [padDigits_split100 h2 hm]
  simp only [digitChars_append]
  show pad2 (t.year % 100) ++ pad2 t.month ++ pad2 t.day ++ pad2 t.hour
      ++ pad2 t.minute ++ pad2 t.second = _
  simp [pad2, List.append_assoc]

theorem truenas_data (t : DateTime) (hy : t.year < 10000)
    (hm : t.month < 100) (hd : t.day < 100) (hh : t.hour < 100)
    (hmi : t.minute < 100) (hs : t.second < 100) :
    (truenasSuffix t).data = digitChars (padDigits 14 (chronoVal t)) := by
  have p4 : (10 : Nat) ^ 4 = 10000 := by norm_num
  have p6 : (10 : Nat) ^ 6 = 1000000 := by norm_num
  have p8 : (10 : Nat) ^ 8 = 100000000 := by norm_num
  have p10 : (10 : Nat) ^ 10 = 10000000000 := by norm_num
  have p12 : (10 : Nat) ^ 12 = 1000000000000 := by norm_num
  have h4 : t.year < 10 ^ 4 := by omega
  have b2 : t.year * 100 + t.month < 10 ^ 6 := by omega
  have b3 : (t.year * 100 + t.month) * 100 + t.day < 10 ^ 8 := by omega
  have b4 : ((t.year * 100 + t.month) * 100 + t.day) * 100 + t.hour
      < 10 ^ 10 := by omega
  have b5 : (((t.year * 100 + t.month) * 100 + t.day) * 100 + t.hour)
      * 100 + t.minute < 10 ^ 12 := by omega
  show _ = digitChars (padDigits (12 + 2) (chronoVal t))
  unfold chronoVal
  rw [padDigits_split100 b5 hs]
  show _ = digitChars (padDigits (10 + 2) _ ++ _)
  rw [padDigits_split100 b4 hmi]
  show _ = digitChars ((padDigits (8 + 2) _ ++ _) ++ _)
  rw [padDigits_split100 b3 hh]
  show _ = digitChars (((padDigits (6 + 2) _ ++ _) ++ _) ++ _)
  rw [padDigits_split100 b2 hd]
  show _ = digitChars ((((padDigits (4 + 2) _ ++ _) ++ _) ++ _) ++ _)
  rw [padDigits_split100 h4 hm]
  simp only [digitChars_append]
  show pad4 t.year ++ pad2 t.month ++ pad2 t.day ++ pad2 t.hour
      ++ pad2 t.minute ++ pad2 t.second = _
  simp [pad2, pad4, List.append_assoc]

theorem isoDate_data (t : DateTime) (hy : t.year < 10000)
    (hm : t.month < 100) (hd : t.day < 100) :
    digitChars (padDigits 8 (isoDateVal t)) = pad4 t.year ++ pad2 t.month ++ pad2 t.day := by
  have p4 : (10 : Nat) ^ 4 = 10000 := by norm_num
  have p6 : (10 : Nat) ^ 6 = 1000000 := by norm_num
  have h4 : t.year < 10 ^ 4 := by omega
  have b2 : t.year * 100 + t.month < 10 ^ 6 := by omega
  show digitChars (padDigits (6 + 2) (isoDateVal t)) = _
  unfold isoDateVal
  rw [padDigits_split100 b2 hd]
  show digitChars (padDigits (4 + 2) _ ++ _) = _
  rw [padDigits_split100 h4 hm]
  simp [pad2, pad4, digitChars_append, List.append_assoc]

theorem isoTime_data (t : DateTime)
    (hh : t.hour < 100) (hmi : t.minute < 100) (hs : t.second < 100) :
    digitChars (padDigits 6 (isoTimeVal t)) = pad2 t.hour ++ pad2 t.minute ++ pad2 t.second := by
  have p4 : (10 : Nat) ^ 4 = 10000 := by norm_num
  have b2 : t.hour * 100 + t.minute < 10 ^ 4 := by omega
  show digitChars (padDigits (4 + 2) (isoTimeVal t)) = _
  unfold isoTimeVal
  rw [padDigits_split100 b2 hs]
  show digitChars (padDigits (2 + 2) _ ++ _) = _
  rw [padDigits_split100 (show t.hour < 10 ^ 2 by norm_num; omega) hmi]
  simp [pad2, digitChars_append, List.append_assoc]

theorem pad2_filter {n : Nat} (hn : n < 100) :
    (pad2 n).filter (fun c => c != '_') = pad2 n := by
  have h2 : n < 10 ^ 2 := by norm_num; omega
  exact digitChars_filter (padDigits_mem_lt 2 h2)

theorem pad4_filter {n : Nat} (hn : n < 10000) :
    (pad4 n).filter (fun c => c != '_') = pad4 n := by
  have h4 : n < 10 ^ 4 := by norm_num; omega
  exact digitChars_filter (padDigits_mem_lt 4 h4)

theorem compact_filter_data (t : DateTime)
    (hm : t.month < 100) (hd : t.day < 100) (hh : t.hour < 100)
    (hmi : t.minute < 100) (hs : t.second < 100) :
    (compactSuffix t).data.filter (fun c => c != '_')
      = digitChars (padDigits 12 (compactVal t)) := by
  rw [compact_data t hm hd hh hmi hs]
  exact digitChars_filter (padDigits_mem_lt 12 (compactVal_lt t hm hd hh hmi hs))

theorem human_filter_data (t : DateTime)
    (hm : t.month < 100) (hd : t.day < 100) (hh : t.hour < 100)
    (hmi : t.minute < 100) (hs : t.second < 100) :
    (humanSuffix t).data.filter (fun c => c != '_')
      = digitChars (padDigits 12 (compactVal t)) := by
  have hy : t.year % 100 < 100 := Nat.mod_lt _ (by omega)
  rw [← compact_filter_data t hm hd hh hmi hs]
  show (pad2 (t.year % 100) ++ pad2 t.month ++ pad2 t.day
      ++ '_' :: (pad2 t.hour ++ pad2 t.minute ++ pad2 t.second)).filter _
    = (pad2 (t.year % 100) ++ pad2 t.month ++ pad2 t.day
      ++ pad2 t.hour ++ pad2 t.minute ++ pad2 t.second).filter _
  simp [List.filter_append, List.filter_cons, pad2_filter hy, pad2_filter hm,
    pad2_filter hd, pad2_filter hh, pad2_filter hmi, pad2_filter hs,
    List.append_assoc]

theorem truenas_filter_data (t : DateTime) (hy : t.year < 10000)
    (hm : t.month < 100) (hd : t.day < 100) (hh : t.hour < 100)
    (hmi : t.minute < 100) (hs : t.second < 100) :
    (truenasSuffix t).data.filter (fun c => c != '_')
      = digitChars (padDigits 14 (chronoVal t)) := by
  rw [truenas_data t hy hm hd hh hmi hs]
  exact digitChars_filter (padDigits_mem_lt 14 (chronoVal_lt t hy hm hd hh hmi hs))

theorem iso_filter_data (t : DateTime) (hy : t.year < 10000)
    (hm : t.month < 100) (hd : t.day < 100) (hh : t.hour < 100)
    (hmi : t.minute < 100) (hs : t.second < 100) :
    (isoSuffix t).data.filter (fun c => c != '_')
      = digitChars (padDigits 8 (isoDateVal t))
        ++ 'T' :: digitChars (padDigits 6 (isoTimeVal t)) := by
  rw [isoDate_data t hy hm hd, isoTime_data t hh hmi hs]
  show ('_' :: (pad4 t.year ++ '_' :: (pad2 t.month ++ '_' :: (pad2 t.day
      ++ 'T' :: (pad2 t.hour ++ '_' :: (pad2 t.minute ++ '_' :: pad2 t.second)))))).filter _
    = _
  simp [List.filter_append, List.filter_cons, pad2_filter hm, pad2_filter hd,
    pad2_filter hh, pad2_filter hmi, pad2_filter hs, pad4_filter hy,
    List.append_assoc]

theorem pySortKey_append (pre sfx : String) :
    pySortKey (pre ++ sfx) = ⟨stripKey pre ++ stripKey sfx⟩ := by
  unfold pySortKey stripKey
  rw [String.data_append, List.filter_append]

theorem key_block_lt_iff (P : List Char) {w n1 n2 : Nat}
    (h1 : n1 < 10 ^ w) (h2 : n2 < 10 ^ w) :
    ((⟨P ++ digitChars (padDigits w n1)⟩ : String)
      < ⟨P ++ digitChars (padDigits w n2)⟩) ↔ n1 < n2 := by
  rw [string_lt_iff_data_lt]
  show P ++ digitChars (padDigits w n1) < P ++ digitChars (padDigits w n2) ↔ _
  rw [list_lex_append_iff]
  have h := padDigits_append_lt_iff w [] [] h1 h2
  simp only [List.append_nil] at h
  rw [h]
  simp

theorem key_iso_shape_lt_iff (P : List Char) {n1 n2 m1 m2 : Nat}
    (ha1 : n1 < 10 ^ 8) (ha2 : n2 < 10 ^ 8)
    (hb1 : m1 < 10 ^ 6) (hb2 : m2 < 10 ^ 6) :
    ((⟨P ++ (digitChars (padDigits 8 n1) ++ 'T' :: digitChars (padDigits 6 m1))⟩ : String)
      < ⟨P ++ (digitChars (padDigits 8 n2) ++ 'T' :: digitChars (padDigits 6 m2))⟩)
    ↔ (n1 < n2 ∨ (n1 = n2 ∧ m1 < m2)) := by
  rw [string_lt_iff_data_lt]
  show P ++ _ < P ++ _ ↔ _
  rw [list_lex_append_iff,
    padDigits_append_lt_iff 8 ('T' :: digitChars (padDigits 6 m1))
      ('T' :: digitChars (padDigits 6 m2)) ha1 ha2,
    list_lex_cons_iff]
  have h6 := padDigits_append_lt_iff 6 [] [] hb1 hb2
  simp only [List.append_nil] at h6
  rw [h6]
  simp [lt_irrefl]

theorem DateTime.Valid.bounds {t : DateTime} (h : t.Valid) :
    t.month < 100 ∧ t.day < 100 ∧ t.hour < 100 ∧ t.minute < 100 ∧
      t.second < 100 ∧ t.year < 10000 := by
  obtain ⟨h1, h2, h3, h4, h5, h6, h7, h8, h9⟩ := h
  omega

theorem key_compact_lt_iff (pre : String) {t1 t2 : DateTime}
    (h1 : t1.Valid) (h2 : t2.Valid) :
    (pySortKey (pre ++ compactSuffix t1) < pySortKey (pre ++ compactSuffix t2)
      ↔ chronoVal t1 < chronoVal t2) := by
  obtain ⟨hm1, hd1, hh1, hmi1, hs1, hy1⟩ := h1.bounds
  obtain ⟨hm2, hd2, hh2, hmi2, hs2, hy2⟩ := h2.bounds
  rw [pySortKey_append, pySortKey_append]
  have e1 : stripKey (compactSuffix t1) = digitChars (padDigits 12 (compactVal t1)) :=
    compact_filter_data t1 hm1 hd1 hh1 hmi1 hs1
  have e2 : stripKey (compactSuffix t2) = digitChars (padDigits 12 (compactVal t2)) :=
    compact_filter_data t2 hm2 hd2 hh2 hmi2 hs2
  rw [e1, e2, key_block_lt_iff (stripKey pre)
    (compactVal_lt t1 hm1 hd1 hh1 hmi1 hs1) (compactVal_lt t2 hm2 hd2 hh2 hmi2 hs2)]
  have c1 : 2000 ≤ t1.year := h1.1
  have c2 : t1.year < 2100 := h1.2.1
  have c3 : 2000 ≤ t2.year := h2.1
  have c4 : t2.year < 2100 := h2.2.1
  unfold compactVal chronoVal
  omega

theorem key_human_lt_iff (pre : String) {t1 t2 : DateTime}
    (h1 : t1.Valid) (h2 : t2.Valid) :
    (pySortKey (pre ++ humanSuffix t1) < pySortKey (pre ++ humanSuffix t2)
      ↔ chronoVal t1 < chronoVal t2) := by
  obtain ⟨hm1, hd1, hh1, hmi1, hs1, hy1⟩ := h1.bounds
  obtain ⟨hm2, hd2, hh2, hmi2, hs2, hy2⟩ := h2.bounds
  rw [pySortKey_append, pySortKey_append]
  have e1 : stripKey (humanSuffix t1) = digitChars (padDigits 12 (compactVal t1)) :=
    human_filter_data t1 hm1 hd1 hh1 hmi1 hs1
  have e2 : stripKey (humanSuffix t2) = digitChars (padDigits 12 (compactVal t2)) :=
    human_filter_data t2 hm2 hd2 hh2 hmi2 hs2
  rw [e1, e2, key_block_lt_iff (stripKey pre)
    (compactVal_lt t1 hm1 hd1 hh1 hmi1 hs1) (compactVal_lt t2 hm2 hd2 hh2 hmi2 hs2)]
  have c1 : 2000 ≤ t1.year := h1.1
  have c2 : t1.year < 2100 := h1.2.1
  have c3 : 2000 ≤ t2.year := h2.1
  have c4 : t2.year < 2100 := h2.2.1
  unfold compactVal chronoVal
  omega

theorem key_truenas_lt_iff (pre : String) {t1 t2 : DateTime}
    (h1 : t1.Valid) (h2 : t2.Valid) :
    (pySortKey (pre ++ truenasSuffix t1) < pySortKey (pre ++ truenasSuffix t2)
      ↔ chronoVal t1 < chronoVal t2) := by
  obtain ⟨hm1, hd1, hh1, hmi1, hs1, hy1⟩ := h1.bounds
  obtain ⟨hm2, hd2, hh2, hmi2, hs2, hy2⟩ := h2.bounds
  rw [pySortKey_append, pySortKey_append]
  have e1 : stripKey (truenasSuffix t1) = digitChars (padDigits 14 (chronoVal t1)) :=
    truenas_filter_data t1 hy1 hm1 hd1 hh1 hmi1 hs1
  have e2 : stripKey (truenasSuffix t2) = digitChars (padDigits 14 (chronoVal t2)) :=
    truenas_filter_data t2 hy2 hm2 hd2 hh2 hmi2 hs2
  rw [e1, e2, key_block_lt_iff (stripKey pre)
    (chronoVal_lt t1 hy1 hm1 hd1 hh1 hmi1 hs1)
    (chronoVal_lt t2 hy2 hm2 hd2 hh2 hmi2 hs2)]

theorem isoDateVal_lt (t : DateTime) (hy : t.year < 10000)
    (hm : t.month < 100) (hd : t.day < 100) : isoDateVal t < 10 ^ 8 := by
  have : (10 : Nat) ^ 8 = 100000000 := by norm_num
  unfold isoDateVal
  omega

theorem isoTimeVal_lt (t : DateTime) (hh : t.hour < 100)
    (hmi : t.minute < 100) (hs : t.second < 100) : isoTimeVal t < 10 ^ 6 := by
  have : (10 : Nat) ^ 6 = 1000000 := by norm_num
  unfold isoTimeVal
  omega

theorem key_iso_lt_iff (pre : String) {t1 t2 : DateTime}
    (h1 : t1.Valid) (h2 : t2.Valid) :
    (pySortKey (pre ++ isoSuffix t1) < pySortKey (pre ++ isoSuffix t2)
      ↔ chronoVal t1 < chronoVal t2) := by
  obtain ⟨hm1, hd1, hh1, hmi1, hs1, hy1⟩ := h1.bounds
  obtain ⟨hm2, hd2, hh2, hmi2, hs2, hy2⟩ := h2.bounds
  rw [pySortKey_append, pySortKey_append]
  have e1 := iso_filter_data t1 hy1 hm1 hd1 hh1 hmi1 hs1
  have e2 := iso_filter_data t2 hy2 hm2 hd2 hh2 hmi2 hs2
  unfold stripKey
  rw [e1, e2,
    key_iso_shape_lt_iff (pre.data.filter (fun c => c != '_'))
      (isoDateVal_lt t1 hy1 hm1 hd1) (isoDateVal_lt t2 hy2 hm2 hd2)
      (isoTimeVal_lt t1 hh1 hmi1 hs1) (isoTimeVal_lt t2 hh2 hmi2 hs2)]
  unfold isoDateVal isoTimeVal chronoVal
  omega

theorem snapshot_name_iso_eq (human truenas : Bool) (label : Label) (t : DateTime) :
    snapshot_name true human truenas label t = labelText human label ++ isoSuffix t := rfl

theorem snapshot_name_human_eq (truenas : Bool) (label : Label) (t : DateTime) :
    snapshot_name false true truenas label t = labelText true label ++ humanSuffix t := rfl

theorem snapshot_name_truenas_eq (label : Label) (t : DateTime) :
    snapshot_name false false true label t = labelText false label ++ truenasSuffix t := rfl

theorem snapshot_name_compact_eq (label : Label) (t : DateTime) :
    snapshot_name false false false label t = labelText false label ++ compactSuffix t := rfl

theorem key_compact_digits (t : DateTime) (hv : t.Valid) :
    (pySortKey (compactSuffix t)).data.all Char.isDigit = true := by
  obtain ⟨hm, hd, hh, hmi, hs, hy⟩ := hv.bounds
  show ((compactSuffix t).data.filter (fun c => c != '_')).all Char.isDigit = true
  rw [compact_filter_data t hm hd hh hmi hs]
  exact digitChars_all_isDigit (padDigits_mem_lt 12 (compactVal_lt t hm hd hh hmi hs))

theorem key_human_digits (t : DateTime) (hv : t.Valid) :
    (pySortKey (humanSuffix t)).data.all Char.isDigit = true := by
  obtain ⟨hm, hd, hh, hmi, hs, hy⟩ := hv.bounds
  show ((humanSuffix t).data.filter (fun c => c != '_')).all Char.isDigit = true
  rw [human_filter_data t hm hd hh hmi hs]
  exact digitChars_all_isDigit (padDigits_mem_lt 12 (compactVal_lt t hm hd hh hmi hs))

theorem key_truenas_digits (t : DateTime) (hv : t.Valid) :
    (pySortKey (truenasSuffix t)).data.all Char.isDigit = true := by
  obtain ⟨hm, hd, hh, hmi, hs, hy⟩ := hv.bounds
  show ((truenasSuffix t).data.filter (fun c => c != '_')).all Char.isDigit = true
  rw [truenas_filter_data t hy hm hd hh hmi hs]
  exact digitChars_all_isDigit (padDigits_mem_lt 14 (chronoVal_lt t hy hm hd hh hmi hs))

/-- C2 is false as stated: the stripped ISO suffix keeps its T and is not a
pure digit string, and across two supported formats (compact and TrueNAS,
both matched by the pruner's pattern for the daily label) the descending
sort-key order contradicts reverse chronological order at these inputs. -/
theorem C2_sort_key_counterexample :
    (¬ (pySortKey (isoSuffix ⟨2025, 10, 12, 14, 30, 0⟩)).data.all Char.isDigit = true) ∧
    reSearchAuto "daily" ("autodaily" ++ compactSuffix ⟨2025, 10, 12, 14, 30, 0⟩)
      = some ("autodaily" ++ compactSuffix ⟨2025, 10, 12, 14, 30, 0⟩) ∧
    reSearchAuto "daily" ("autodaily" ++ truenasSuffix ⟨2026, 1, 1, 0, 0, 0⟩)
      = some ("autodaily" ++ truenasSuffix ⟨2026, 1, 1, 0, 0, 0⟩) ∧
    chronoVal ⟨2025, 10, 12, 14, 30, 0⟩ < chronoVal ⟨2026, 1, 1, 0, 0, 0⟩ ∧
    pySortKey ("autodaily" ++ truenasSuffix ⟨2026, 1, 1, 0, 0, 0⟩)
      < pySortKey ("autodaily" ++ compactSuffix ⟨2025, 10, 12, 14, 30, 0⟩) := by
  refine ⟨by decide, by decide, by decide, by decide, ?_⟩
  rw [string_lt_iff_data_lt]
  decide

/-- C2 (amended): stripping the separators turns the compact, human and
TrueNAS suffixes into pure digit strings, while the ISO suffix keeps a single
T; and for two snapshot names composed with the same label and the same
timestamp format, for timestamps within the representable century
(2000-2099), descending sort-key order agrees with reverse chronological
order. -/
theorem key_snapshot_name_lt_iff (iso human truenas : Bool) (label : Label)
    {t1 t2 : DateTime} (h1 : t1.Valid) (h2 : t2.Valid) :
    (pySortKey (snapshot_name iso human truenas label t1)
        < pySortKey (snapshot_name iso human truenas label t2)
      ↔ chronoVal t1 < chronoVal t2) := by
  cases iso
  · cases human
    · cases truenas
      · rw [snapshot_name_compact_eq, snapshot_name_compact_eq]
        exact key_compact_lt_iff _ h1 h2
      · rw [snapshot_name_truenas_eq, snapshot_name_truenas_eq]
        exact key_truenas_lt_iff _ h1 h2
    · rw [snapshot_name_human_eq, snapshot_name_human_eq]
      exact key_human_lt_iff _ h1 h2
  · rw [snapshot_name_iso_eq, snapshot_name_iso_eq]
    exact key_iso_lt_iff _ h1 h2

theorem C2_sort_key_amended (iso human truenas : Bool) (label : Label)
    {t1 t2 : DateTime} (h1 : t1.Valid) (h2 : t2.Valid) :
    ((pySortKey (compactSuffix t1)).data.all Char.isDigit = true ∧
      (pySortKey (humanSuffix t1)).data.all Char.isDigit = true ∧
      (pySortKey (truenasSuffix t1)).data.all Char.isDigit = true) ∧
    (pySortKey (snapshot_name iso human truenas label t1)
        < pySortKey (snapshot_name iso human truenas label t2)
      ↔ chronoVal t1 < chronoVal t2) :=
  ⟨⟨key_compact_digits t1 h1, key_human_digits t1 h1, key_truenas_digits t1 h1⟩,
    key_snapshot_name_lt_iff iso human truenas label h1 h2⟩

theorem C2_sort_key_amended_witness :
    dtA.Valid ∧ dtB.Valid ∧
    (((pySortKey (compactSuffix dtA)).data.all Char.isDigit = true ∧
       (pySortKey (humanSuffix dtA)).data.all Char.isDigit = true ∧
       (pySortKey (truenasSuffix dtA)).data.all Char.isDigit = true) ∧
     (pySortKey (snapshot_name false false false Label.daily dtA)
         < pySortKey (snapshot_name false false false Label.daily dtB)
       ↔ chronoVal dtA < chronoVal dtB)) :=
  ⟨by decide, by decide,
    C2_sort_key_amended false false false Label.daily (by decide) (by decide)⟩

/-! ### Round trip: composed names are matched by the pruner's pattern -/

theorem pad2_all_sc {n : Nat} (hn : n < 100) : (pad2 n).all isSuffixChar = true := by
  have h2 : n < 10 ^ 2 := by norm_num; omega
  exact digitChars_all_isSuffixChar (padDigits_mem_lt 2 h2)

theorem pad4_all_sc {n : Nat} (hn : n < 10000) : (pad4 n).all isSuffixChar = true := by
  have h4 : n < 10 ^ 4 := by norm_num; omega
  exact digitChars_all_isSuffixChar (padDigits_mem_lt 4 h4)

theorem suffix_all_isSuffixChar (iso human truenas : Bool) (t : DateTime)
    (hv : t.Valid) :
    (if iso then isoSuffix t else if human then humanSuffix t
      else if truenas then truenasSuffix t else compactSuffix t).data.all
        isSuffixChar = true := by
  obtain ⟨hm, hd, hh, hmi, hs, hy⟩ := hv.bounds
  have hy2 : t.year % 100 < 100 := Nat.mod_lt _ (by omega)
  cases iso
  · cases human
    · cases truenas
      · show (pad2 (t.year % 100) ++ pad2 t.month ++ pad2 t.day
            ++ pad2 t.hour ++ pad2 t.minute ++ pad2 t.second).all isSuffixChar = true
        simp [List.all_append, pad2_all_sc hy2, pad2_all_sc hm, pad2_all_sc hd,
          pad2_all_sc hh, pad2_all_sc hmi, pad2_all_sc hs]
      · show (pad4 t.year ++ pad2 t.month ++ pad2 t.day
            ++ pad2 t.hour ++ pad2 t.minute ++ pad2 t.second).all isSuffixChar = true
        simp [List.all_append, pad4_all_sc hy, pad2_all_sc hm, pad2_all_sc hd,
          pad2_all_sc hh, pad2_all_sc hmi, pad2_all_sc hs]
    · show (pad2 (t.year % 100) ++ pad2 t.month ++ pad2 t.day
          ++ '_' :: (pad2 t.hour ++ pad2 t.minute ++ pad2 t.second)).all
            isSuffixChar = true
      simp [List.all_append, List.all_cons, pad2_all_sc hy2, pad2_all_sc hm,
        pad2_all_sc hd, pad2_all_sc hh, pad2_all_sc hmi, pad2_all_sc hs,
        isSuffixChar]
  · show ('_' :: (pad4 t.year ++ '_' :: (pad2 t.month ++ '_' :: (pad2 t.day
        ++ 'T' :: (pad2 t.hour ++ '_' :: (pad2 t.minute
        ++ '_' :: pad2 t.second)))))).all isSuffixChar = true
    simp [List.all_append, List.all_cons, pad4_all_sc hy, pad2_all_sc hm,
      pad2_all_sc hd, pad2_all_sc hh, pad2_all_sc hmi, pad2_all_sc hs,
      isSuffixChar]

theorem suffix_ne_nil (iso human truenas : Bool) (t : DateTime) :
    (if iso then isoSuffix t else if human then humanSuffix t
      else if truenas then truenasSuffix t else compactSuffix t).data ≠ [] := by
  cases iso <;> cases human <;> cases truenas <;>
    simp [isoSuffix, humanSuffix, truenasSuffix, compactSuffix, pad2, pad4,
      digitChars, padDigits]

theorem matchLabelSuffix_self (label sfx : List Char) (hne : sfx ≠ [])
    (hall : sfx.all isSuffixChar = true) :
    matchLabelSuffix label (label ++ sfx) = true := by
  unfold matchLabelSuffix
  rw [List.isPrefixOf_iff_prefix.mpr (List.prefix_append label sfx)]
  rw [List.drop_left]
  simp [hall, hne]

theorem searchAuto_hit (label rest : List Char)
    (h : matchAfterAuto label rest = true) :
    searchAuto label ('a' :: 'u' :: 't' :: 'o' :: rest)
      = some ('a' :: 'u' :: 't' :: 'o' :: rest) := by
  simp [searchAuto, List.isPrefixOf, h]

theorem reSearchAuto_snapshot_name (iso human truenas : Bool) (label : Label)
    (t : DateTime) (hv : t.Valid) :
    reSearchAuto label.str (snapshot_name iso human truenas label t)
      = some (snapshot_name iso human truenas label t) := by
  have hall := suffix_all_isSuffixChar iso human truenas t hv
  have hne := suffix_ne_nil iso human truenas t
  set sfx := (if iso then isoSuffix t else if human then humanSuffix t
      else if truenas then truenasSuffix t else compactSuffix t) with hsfx
  unfold reSearchAuto
  cases human
  · cases label
    case minute =>
      have hm := matchLabelSuffix_self "minute".data sfx.data hne hall
      rw [show (snapshot_name iso false truenas Label.minute t).data
          = 'a' :: 'u' :: 't' :: 'o' :: ("minute".data ++ sfx.data) from rfl]
      rw [searchAuto_hit _ _ (by exact hm)]
      rfl
    case hourly =>
      have hm := matchLabelSuffix_self "hourly".data sfx.data hne hall
      rw [show (snapshot_name iso false truenas Label.hourly t).data
          = 'a' :: 'u' :: 't' :: 'o' :: ("hourly".data ++ sfx.data) from rfl]
      rw [searchAuto_hit _ _ (by exact hm)]
      rfl
    case daily =>
      have hm := matchLabelSuffix_self "daily".data sfx.data hne hall
      rw [show (snapshot_name iso false truenas Label.daily t).data
          = 'a' :: 'u' :: 't' :: 'o' :: ("daily".data ++ sfx.data) from rfl]
      rw [searchAuto_hit _ _ (by exact hm)]
      rfl
    case weekly =>
      have hm := matchLabelSuffix_self "weekly".data sfx.data hne hall
      rw [show (snapshot_name iso false truenas Label.weekly t).data
          = 'a' :: 'u' :: 't' :: 'o' :: ("weekly".data ++ sfx.data) from rfl]
      rw [searchAuto_hit _ _ (by exact hm)]
      rfl
    case monthly =>
      have hm := matchLabelSuffix_self "monthly".data sfx.data hne hall
      rw [show (snapshot_name iso false truenas Label.monthly t).data
          = 'a' :: 'u' :: 't' :: 'o' :: ("monthly".data ++ sfx.data) from rfl]
      rw [searchAuto_hit _ _ (by exact hm)]
      rfl
  · have hall2 : ('_' :: sfx.data).all isSuffixChar = true := by
      simp [List.all_cons, hall, isSuffixChar]
    have hne2 : ('_' :: sfx.data) ≠ [] := by simp
    cases label
    case minute =>
      have hm := matchLabelSuffix_self "minute".data ('_' :: sfx.data) hne2 hall2
      rw [show (snapshot_name iso true truenas Label.minute t).data
          = 'a' :: 'u' :: 't' :: 'o' :: ('_' :: ("minute".data ++ '_' :: sfx.data))
          from rfl]
      rw [searchAuto_hit _ _ (by
        show matchLabelSuffix "minute".data ("minute".data ++ '_' :: sfx.data)
            || matchLabelSuffix "minute".data ('_' :: ("minute".data ++ '_' :: sfx.data))
          = true
        rw [hm]
        rfl)]
      rfl
    case hourly =>
      have hm := matchLabelSuffix_self "hourly".data ('_' :: sfx.data) hne2 hall2
      rw [show (snapshot_name iso true truenas Label.hourly t).data
          = 'a' :: 'u' :: 't' :: 'o' :: ('_' :: ("hourly".data ++ '_' :: sfx.data))
          from rfl]
      rw [searchAuto_hit _ _ (by
        show matchLabelSuffix "hourly".data ("hourly".data ++ '_' :: sfx.data)
            || matchLabelSuffix "hourly".data ('_' :: ("hourly".data ++ '_' :: sfx.data))
          = true
        rw [hm]
        rfl)]
      rfl
    case daily =>
      have hm := matchLabelSuffix_self "daily".data ('_' :: sfx.data) hne2 hall2
      rw [show (snapshot_name iso true truenas Label.daily t).data
          = 'a' :: 'u' :: 't' :: 'o' :: ('_' :: ("daily".data ++ '_' :: sfx.data))
          from rfl]
      rw [searchAuto_hit _ _ (by
        show matchLabelSuffix "daily".data ("daily".data ++ '_' :: sfx.data)
            || matchLabelSuffix "daily".data ('_' :: ("daily".data ++ '_' :: sfx.data))
          = true
        rw [hm]
        rfl)]
      rfl
    case weekly =>
      have hm := matchLabelSuffix_self "weekly".data ('_' :: sfx.data) hne2 hall2
      rw [show (snapshot_name iso true truenas Label.weekly t).data
          = 'a' :: 'u' :: 't' :: 'o' :: ('_' :: ("weekly".data ++ '_' :: sfx.data))
          from rfl]
      rw [searchAuto_hit _ _ (by
        show matchLabelSuffix "weekly".data ("weekly".data ++ '_' :: sfx.data)
            || matchLabelSuffix "weekly".data ('_' :: ("weekly".data ++ '_' :: sfx.data))
          = true
        rw [hm]
        rfl)]
      rfl
    case monthly =>
      have hm := matchLabelSuffix_self "monthly".data ('_' :: sfx.data) hne2 hall2
      rw [show (snapshot_name iso true truenas Label.monthly t).data
          = 'a' :: 'u' :: 't' :: 'o' :: ('_' :: ("monthly".data ++ '_' :: sfx.data))
          from rfl]
      rw [searchAuto_hit _ _ (by
        show matchLabelSuffix "monthly".data ("monthly".data ++ '_' :: sfx.data)
            || matchLabelSuffix "monthly".data ('_' :: ("monthly".data ++ '_' :: sfx.data))
          = true
        rw [hm]
        rfl)]
      rfl

/-- C7 is false as stated: for timestamps in different centuries the
two-digit-year compact format collapses the century, so the sort-key order of
the composed names contradicts the chronological order of the original
timestamps at these concrete datetimes (both are representable datetime
values and legal inputs of strftime). -/
theorem C7_roundtrip_counterexample :
    chronoVal ⟨1999, 12, 31, 23, 59, 59⟩ < chronoVal ⟨2025, 1, 1, 0, 0, 0⟩ ∧
    ¬ (pySortKey (snapshot_name false false false Label.daily
          ⟨1999, 12, 31, 23, 59, 59⟩)
        < pySortKey (snapshot_name false false false Label.daily
          ⟨2025, 1, 1, 0, 0, 0⟩)) := by
  constructor
  · decide
  · rw [string_lt_iff_data_lt]
    decide

/-- C7 (amended): for every label and timestamp-format selection, the name
composed by the creator from a timestamp of the representable century
(2000-2099) is matched in full by the pruner's pattern for that label
(re-parsing recovers the very name, hence the same label), and for two such
names the sort-key order is equivalent to the chronological order of the
original timestamps. -/
theorem C7_roundtrip_amended (iso human truenas : Bool) (label : Label)
    {t1 t2 : DateTime} (h1 : t1.Valid) (h2 : t2.Valid) :
    reSearchAuto label.str (snapshot_name iso human truenas label t1)
      = some (snapshot_name iso human truenas label t1) ∧
    (pySortKey (snapshot_name iso human truenas label t1)
        < pySortKey (snapshot_name iso human truenas label t2)
      ↔ chronoVal t1 < chronoVal t2) :=
  ⟨reSearchAuto_snapshot_name iso human truenas label t1 h1,
    key_snapshot_name_lt_iff iso human truenas label h1 h2⟩

theorem C7_roundtrip_amended_witness :
    dtA.Valid ∧ dtB.Valid ∧
    (reSearchAuto Label.daily.str (snapshot_name true false false Label.daily dtA)
        = some (snapshot_name true false false Label.daily dtA) ∧
      (pySortKey (snapshot_name true false false Label.daily dtA)
          < pySortKey (snapshot_name true false false Label.daily dtB)
        ↔ chronoVal dtA < chronoVal dtB)) :=
  ⟨by decide, by decide,
    C7_roundtrip_amended true false false Label.daily (by decide) (by decide)⟩

/-! ### Dictionary facts -/

theorem beq_symm_false {k p : String} (h : (p == k) = false) : (k == p) = false := by
  rw [beq_eq_false_iff_ne] at h ⊢
  exact fun he => h he.symm

theorem any_false_lookup_none {α : Type} (d : List (String × α)) (k : String)
    (h : d.any (fun p => p.1 == k) = false) : d.lookup k = none := by
  induction d with
  | nil => rfl
  | cons p d ih =>
    obtain ⟨pk, pv⟩ := p
    simp only [List.any_cons, Bool.or_eq_false_iff] at h
    simp [List.lookup, beq_symm_false h.1, ih h.2]

theorem lookup_append_none {α : Type} (d1 d2 : List (String × α)) (k : String)
    (h : d1.lookup k = none) : (d1 ++ d2).lookup k = d2.lookup k := by
  induction d1 with
  | nil => rfl
  | cons p d ih =>
    obtain ⟨pk, pv⟩ := p
    rw [List.cons_append]
    cases hk : (k == pk) with
    | true => simp [List.lookup, hk] at h
    | false =>
      simp only [List.lookup, hk] at h ⊢
      exact ih h

theorem lookup_map_replace {α : Type} (d : List (String × α)) (k : String) (v : α)
    (h : d.any (fun p => p.1 == k) = true) :
    (d.map (fun p => if p.1 == k then (k, v) else p)).lookup k = some v := by
  induction d with
  | nil => simp at h
  | cons p d ih =>
    obtain ⟨pk, pv⟩ := p
    simp only [List.any_cons, Bool.or_eq_true] at h
    rw [List.map_cons]
    cases hp : (pk == k) with
    | true =>
      rw [if_pos (by simp [hp])]
      simp [List.lookup]
    | false =>
      rw [if_neg (by simp [hp])]
      simp only [List.lookup, beq_symm_false hp]
      rcases h with h | h
      · simp [hp] at h
      · exact ih h

theorem lookup_map_replace_other {α : Type} (d : List (String × α))
    (k k' : String) (v : α) (h : k' ≠ k) :
    (d.map (fun p => if p.1 == k then (k, v) else p)).lookup k' = d.lookup k' := by
  induction d with
  | nil => rfl
  | cons p d ih =>
    obtain ⟨pk, pv⟩ := p
    rw [List.map_cons]
    cases hp : (pk == k) with
    | true =>
      have hpk : pk = k := by simpa [beq_iff_eq] using hp
      subst hpk
      rw [if_pos (by simp [hp])]
      simp only [List.lookup, show (k' == pk) = false from by
        rw [beq_eq_false_iff_ne]; exact h]
      exact ih
    | false =>
      rw [if_neg (by simp [hp])]
      simp only [List.lookup]
      cases hk' : (k' == pk) with
      | true => rfl
      | false => exact ih

theorem lookup_append_single_other {α : Type} (d : List (String × α))
    (k k' : String) (v : α) (h : k' ≠ k) :
    (d ++ [(k, v)]).lookup k' = d.lookup k' := by
  induction d with
  | nil =>
    simp [List.lookup, show (k' == k) = false from by
      rw [beq_eq_false_iff_ne]; exact h]
  | cons p d ih =>
    obtain ⟨pk, pv⟩ := p
    rw [List.cons_append]
    simp only [List.lookup]
    cases hk' : (k' == pk) with
    | true => rfl
    | false => exact ih

theorem dictInsert_lookup_self {α : Type} (d : List (String × α)) (k : String)
    (v : α) : (dictInsert d k v).lookup k = some v := by
  unfold dictInsert
  by_cases ha : d.any (fun p => p.1 == k) = true
  · rw [if_pos ha]
    exact lookup_map_replace d k v ha
  · rw [if_neg ha]
    have ha' : d.any (fun p => p.1 == k) = false := by
      cases h2 : d.any (fun p => p.1 == k) with
      | true => exact absurd h2 ha
      | false => rfl
    rw [lookup_append_none d _ k (any_false_lookup_none d k ha')]
    simp [List.lookup]

theorem dictInsert_lookup_other {α : Type} (d : List (String × α))
    (k k' : String) (v : α) (h : k' ≠ k) :
    (dictInsert d k v).lookup k' = d.lookup k' := by
  unfold dictInsert
  by_cases ha : d.any (fun p => p.1 == k) = true
  · rw [if_pos ha]
    exact lookup_map_replace_other d k k' v h
  · rw [if_neg ha]
    exact lookup_append_single_other d k k' v h

theorem dictInsert_isSome_mono {α : Type} (d : List (String × α))
    (k k' : String) (v : α) (h : (d.lookup k').isSome = true) :
    ((dictInsert d k v).lookup k').isSome = true := by
  by_cases he : k' = k
  · subst he
    rw [dictInsert_lookup_self]
    rfl
  · rw [dictInsert_lookup_other d k k' v he]
    exact h

theorem dictInsert_isSome_inv {α : Type} (d : List (String × α))
    (k k' : String) (v : α)
    (h : ((dictInsert d k v).lookup k').isSome = true) :
    k' = k ∨ (d.lookup k').isSome = true := by
  by_cases he : k' = k
  · exact Or.inl he
  · rw [dictInsert_lookup_other d k k' v he] at h
    exact Or.inr h

theorem dictPop_lookup_self {α : Type} (d : List (String × α)) (k : String) :
    (dictPop d k).lookup k = none := by
  induction d with
  | nil => rfl
  | cons p d ih =>
    obtain ⟨pk, pv⟩ := p
    unfold dictPop at ih ⊢
    rw [List.filter_cons]
    cases hp : (pk == k) with
    | true =>
      have : (pk != k) = false := by simp [bne, hp]
      rw [this]
      simpa using ih
    | false =>
      have : (pk != k) = true := by simp [bne, hp]
      rw [this]
      simp only [List.lookup, beq_symm_false hp]
      simpa using ih

theorem dictPop_lookup_other {α : Type} (d : List (String × α))
    (k k' : String) (h : k' ≠ k) :
    (dictPop d k).lookup k' = d.lookup k' := by
  induction d with
  | nil => rfl
  | cons p d ih =>
    obtain ⟨pk, pv⟩ := p
    unfold dictPop at ih ⊢
    rw [List.filter_cons]
    cases hp : (pk == k) with
    | true =>
      have hb : (pk != k) = false := by simp [bne, hp]
      rw [hb]
      have hpk : pk = k := by simpa [beq_iff_eq] using hp
      subst hpk
      simp only [List.lookup, show (k' == pk) = false from by
        rw [beq_eq_false_iff_ne]; exact h]
      simpa using ih
    | false =>
      have hb : (pk != k) = true := by simp [bne, hp]
      rw [hb]
      simp only [List.lookup]
      cases hk' : (k' == pk) with
      | true => rfl
      | false => simpa using ih

theorem foldl_dictPop_none {α : Type} (l : List String)
    (d : List (String × α)) (k : String) (h : d.lookup k = none) :
    ((l.foldl dictPop d).lookup k) = none := by
  induction l generalizing d with
  | nil => exact h
  | cons x l ih =>
    rw [List.foldl_cons]
    apply ih
    by_cases he : k = x
    · subst he; exact dictPop_lookup_self d k
    · rw [dictPop_lookup_other d x k he]; exact h

theorem foldl_dictPop_mem {α : Type} (l : List String)
    (d : List (String × α)) (k : String) (h : k ∈ l) :
    ((l.foldl dictPop d).lookup k) = none := by
  induction l generalizing d with
  | nil => simp at h
  | cons x l ih =>
    rw [List.foldl_cons]
    by_cases he : k = x
    · subst he
      exact foldl_dictPop_none l _ k (dictPop_lookup_self d k)
    · rcases List.mem_cons.mp h with h' | h'
      · exact absurd h' he
      · exact ih _ h'

theorem foldl_dictPop_not_mem {α : Type} (l : List String)
    (d : List (String × α)) (k : String) (h : k ∉ l) :
    ((l.foldl dictPop d).lookup k) = d.lookup k := by
  induction l generalizing d with
  | nil => rfl
  | cons x l ih =>
    rw [List.foldl_cons]
    have hx : k ≠ x := fun he => h (by simp [he])
    rw [ih _ (fun hm => h (by simp [hm])), dictPop_lookup_other d x k hx]

theorem pickIncludes_mono (all : List (String × String)) (inc : List String) :
    ∀ (picked picked2 : List (String × String)) (v : String),
    (picked.lookup v).isSome = true →
    pickIncludes all inc picked = .ok picked2 →
    (picked2.lookup v).isSome = true := by
  induction inc with
  | nil =>
    intro picked picked2 v h hok
    unfold pickIncludes at hok
    simp only [Except.ok.injEq] at hok
    rw [← hok]
    exact h
  | cons w rest ih =>
    intro picked picked2 v h hok
    unfold pickIncludes at hok
    cases hl : all.lookup w with
    | some virt =>
      rw [hl] at hok
      exact ih _ _ _ (dictInsert_isSome_mono _ _ _ _ h) hok
    | none =>
      rw [hl] at hok
      simp at hok

theorem pickIncludes_some (all : List (String × String)) (inc : List String) :
    ∀ (picked picked2 : List (String × String)),
    pickIncludes all inc picked = .ok picked2 →
    ∀ v ∈ inc, (picked2.lookup v).isSome = true := by
  induction inc with
  | nil => intro _ _ _ v hv; simp at hv
  | cons w rest ih =>
    intro picked picked2 hok v hv
    unfold pickIncludes at hok
    cases hl : all.lookup w with
    | none => rw [hl] at hok; simp at hok
    | some virt =>
      rw [hl] at hok
      rcases List.mem_cons.mp hv with rfl | hv'
      · exact pickIncludes_mono all rest _ _ v
          (by rw [dictInsert_lookup_self]; rfl) hok
      · exact ih _ _ hok v hv'

theorem pickIncludes_inv (all : List (String × String)) (inc : List String) :
    ∀ (picked picked2 : List (String × String)) (v : String),
    pickIncludes all inc picked = .ok picked2 →
    (picked2.lookup v).isSome = true →
    (picked.lookup v).isSome = true ∨ v ∈ inc := by
  induction inc with
  | nil =>
    intro picked picked2 v hok h
    unfold pickIncludes at hok
    simp only [Except.ok.injEq] at hok
    rw [← hok] at h
    exact Or.inl h
  | cons w rest ih =>
    intro picked picked2 v hok h
    unfold pickIncludes at hok
    cases hl : all.lookup w with
    | none => rw [hl] at hok; simp at hok
    | some virt =>
      rw [hl] at hok
      rcases ih _ _ v hok h with h' | h'
      · rcases dictInsert_isSome_inv _ _ _ _ h' with rfl | h''
        · exact Or.inr (by simp)
        · exact Or.inl h''
      · exact Or.inr (List.mem_cons_of_mem w h')

theorem mem_tags_go_fst (node : String) (tags etags : List String)
    (cluster : List ClusterVM) (v : String) :
    v ∈ (get_vmids_by_tags_go node tags etags cluster).1 ↔
      ∃ vm ∈ cluster, vm.node = node ∧ toString vm.vmid = v ∧
        (!tags.isEmpty && tags.any (fun tag =>
          (pySplitChar ';' vm.tags).contains tag)) = true := by
  induction cluster with
  | nil => simp [get_vmids_by_tags_go]
  | cons vm rest ih =>
    unfold get_vmids_by_tags_go
    rcases hgo : get_vmids_by_tags_go node tags etags rest with ⟨inc, exc⟩
    rw [hgo] at ih
    dsimp only
    by_cases hn : (vm.node == node) = true
    · rw [if_pos hn]
      have hnode : vm.node = node := by simpa [beq_iff_eq] using hn
      by_cases hc : (!tags.isEmpty && tags.any (fun tag =>
          (pySplitChar ';' vm.tags).contains tag)) = true
      · rw [if_pos hc]
        dsimp only
        constructor
        · intro hv
          rcases List.mem_cons.mp hv with rfl | hv2
          · exact ⟨vm, by simp, hnode, rfl, hc⟩
          · rcases ih.mp hv2 with ⟨w, hw, h1, h2, h3⟩
            exact ⟨w, List.mem_cons_of_mem vm hw, h1, h2, h3⟩
        · rintro ⟨w, hw, h1, h2, h3⟩
          rcases List.mem_cons.mp hw with rfl | hw2
          · exact List.mem_cons.mpr (Or.inl h2.symm)
          · exact List.mem_cons.mpr (Or.inr (ih.mpr ⟨w, hw2, h1, h2, h3⟩))
      · rw [if_neg hc]
        dsimp only
        rw [ih]
        constructor
        · rintro ⟨w, hw, h1, h2, h3⟩
          exact ⟨w, List.mem_cons_of_mem vm hw, h1, h2, h3⟩
        · rintro ⟨w, hw, h1, h2, h3⟩
          rcases List.mem_cons.mp hw with rfl | hw2
          · exact absurd h3 hc
          · exact ⟨w, hw2, h1, h2, h3⟩
    · rw [if_neg hn]
      dsimp only
      rw [ih]
      constructor
      · rintro ⟨w, hw, h1, h2, h3⟩
        exact ⟨w, List.mem_cons_of_mem vm hw, h1, h2, h3⟩
      · rintro ⟨w, hw, h1, h2, h3⟩
        rcases List.mem_cons.mp hw with rfl | hw2
        · exact absurd (by rw [h1, beq_iff_eq] : (w.node == node) = true) hn
        · exact ⟨w, hw2, h1, h2, h3⟩

theorem mem_tags_go_snd (node : String) (tags etags : List String)
    (cluster : List ClusterVM) (v : String) :
    v ∈ (get_vmids_by_tags_go node tags etags cluster).2 ↔
      ∃ vm ∈ cluster, vm.node = node ∧ toString vm.vmid = v ∧
        (!etags.isEmpty && etags.any (fun tag =>
          (pySplitChar ';' vm.tags).contains tag)) = true := by
  induction cluster with
  | nil => simp [get_vmids_by_tags_go]
  | cons vm rest ih =>
    unfold get_vmids_by_tags_go
    rcases hgo : get_vmids_by_tags_go node tags etags rest with ⟨inc, exc⟩
    rw [hgo] at ih
    dsimp only
    by_cases hn : (vm.node == node) = true
    · rw [if_pos hn]
      have hnode : vm.node = node := by simpa [beq_iff_eq] using hn
      by_cases hc : (!etags.isEmpty && etags.any (fun tag =>
          (pySplitChar ';' vm.tags).contains tag)) = true
      · rw [if_pos hc]
        dsimp only
        constructor
        · intro hv
          rcases List.mem_cons.mp hv with rfl | hv2
          · exact ⟨vm, by simp, hnode, rfl, hc⟩
          · rcases ih.mp hv2 with ⟨w, hw, h1, h2, h3⟩
            exact ⟨w, List.mem_cons_of_mem vm hw, h1, h2, h3⟩
        · rintro ⟨w, hw, h1, h2, h3⟩
          rcases List.mem_cons.mp hw with rfl | hw2
          · exact List.mem_cons.mpr (Or.inl h2.symm)
          · exact List.mem_cons.mpr (Or.inr (ih.mpr ⟨w, hw2, h1, h2, h3⟩))
      · rw [if_neg hc]
        dsimp only
        rw [ih]
        constructor
        · rintro ⟨w, hw, h1, h2, h3⟩
          exact ⟨w, List.mem_cons_of_mem vm hw, h1, h2, h3⟩
        · rintro ⟨w, hw, h1, h2, h3⟩
          rcases List.mem_cons.mp hw with rfl | hw2
          · exact absurd h3 hc
          · exact ⟨w, hw2, h1, h2, h3⟩
    · rw [if_neg hn]
      dsimp only
      rw [ih]
      constructor
      · rintro ⟨w, hw, h1, h2, h3⟩
        exact ⟨w, List.mem_cons_of_mem vm hw, h1, h2, h3⟩
      · rintro ⟨w, hw, h1, h2, h3⟩
        rcases List.mem_cons.mp hw with rfl | hw2
        · exact absurd (by rw [h1, beq_iff_eq] : (w.node == node) = true) hn
        · exact ⟨w, hw2, h1, h2, h3⟩

theorem run_command_eq (env : Env) (s : Bool) (c : List String) (f : Bool) :
    run_command env s c f
      = ([Event.exec (if s && !f then "sudo" :: c else c)],
         env.run (if s && !f then "sudo" :: c else c)) := rfl

theorem get_vmids_by_tags_ok (env : Env) (a : Args)
    (tags etags : List String) (evt : List Event) (inc exc : List String)
    (h : get_vmids_by_tags env a tags etags = (evt, .ok (inc, exc))) :
    ∃ cluster, env.clusterParse = .ok cluster ∧
      (inc, exc) = get_vmids_by_tags_go env.nodeName tags etags cluster := by
  unfold get_vmids_by_tags at h
  rcases hrc : run_command env a.useSudo ["pvesh", "get", "/cluster/resources",
    "--type", "vm", "--output-format", "json"] with ⟨ev0, st, msg⟩
  rw [hrc] at h
  dsimp only at h
  split at h
  · simp at h
  · split at h
    · simp at h
    · rename_i cluster heq
      simp only [Prod.mk.injEq, Except.ok.injEq] at h
      exact ⟨cluster, heq, h.2.symm⟩

theorem tagStage_ok_elim (env : Env) (a : Args)
    (all_vmid base picked : List (String × String))
    (tags etags : List String) (hexc : etags ≠ [])
    (hok : (tagStage env a all_vmid base tags etags).2 = .ok picked) :
    ∃ cluster inc exc picked2,
      env.clusterParse = .ok cluster ∧
      (inc, exc) = get_vmids_by_tags_go env.nodeName tags etags cluster ∧
      (if !tags.isEmpty then pickIncludes all_vmid inc base
       else .ok base) = .ok picked2 ∧
      picked = exc.foldl dictPop picked2 := by
  have he : etags.isEmpty = false := by
    cases etags with
    | nil => exact absurd rfl hexc
    | cons x l => rfl
  unfold tagStage at hok
  rw [if_pos (by simp [he])] at hok
  split at hok
  · simp at hok
  · split at hok
    · simp at hok
    · split at hok
      · simp at hok
      · rename_i evt inc exc heqbt
        split at hok
        · simp at hok
        · rename_i picked2 heqpi
          simp only [Except.ok.injEq] at hok
          rcases get_vmids_by_tags_ok env a tags etags evt inc exc heqbt with
            ⟨cluster, hcl, hgo⟩
          refine ⟨cluster, inc, exc, picked2, hcl, hgo, heqpi, ?_⟩
          rw [← hok, if_pos (by simp [he])]

/-- C6: in the tag-filtering stage, inclusion adds exactly the local cluster
guests whose tag set intersects the include list, and exclusion afterwards
removes every picked guest whose tag set intersects the exclude list, so a
guest carrying both an include and an exclude tag is never in the final
picked set: exclusion wins. -/
theorem C6_tag_inclusion_exclusion (env : Env) (a : Args)
    (all_vmid base picked : List (String × String))
    (tags etags : List String) (cluster : List ClusterVM)
    (hcl : env.clusterParse = .ok cluster) (hexc : etags ≠ [])
    (hok : (tagStage env a all_vmid base tags etags).2 = .ok picked) :
    (∀ vm ∈ cluster, vm.node = env.nodeName →
        (∃ tag ∈ etags, tag ∈ pySplitChar ';' vm.tags) →
        picked.lookup (toString vm.vmid) = none) ∧
    (∀ vm ∈ cluster, vm.node = env.nodeName →
        (∃ tag ∈ tags, tag ∈ pySplitChar ';' vm.tags) →
        toString vm.vmid ∉ (get_vmids_by_tags_go env.nodeName tags etags cluster).2 →
        (picked.lookup (toString vm.vmid)).isSome = true) ∧
    (∀ v, (picked.lookup v).isSome = true →
        (base.lookup v).isSome = true
        ∨ v ∈ (get_vmids_by_tags_go env.nodeName tags etags cluster).1) := by
  rcases tagStage_ok_elim env a all_vmid base picked tags etags hexc hok with
    ⟨cluster2, inc, exc, picked2, hcl2, hgo, hpi, hpop⟩
  rw [hcl] at hcl2
  injection hcl2 with hcl2
  subst hcl2
  have hinc : inc = (get_vmids_by_tags_go env.nodeName tags etags cluster).1 := by
    rw [← hgo]
  have hexc2 : exc = (get_vmids_by_tags_go env.nodeName tags etags cluster).2 := by
    rw [← hgo]
  have hene : (!etags.isEmpty) = true := by
    cases etags with
    | nil => exact absurd rfl hexc
    | cons x l => rfl
  refine ⟨?_, ?_, ?_⟩
  · intro vm hvm hnode htag
    have hv : toString vm.vmid ∈ exc := by
      rw [hexc2, mem_tags_go_snd]
      refine ⟨vm, hvm, hnode, rfl, ?_⟩
      rcases htag with ⟨tag, htag1, htag2⟩
      have hany : etags.any (fun t =>
          (pySplitChar ';' vm.tags).contains t) = true := by
        rw [List.any_eq_true]
        exact ⟨tag, htag1, List.elem_iff.mpr htag2⟩
      rw [hene, hany]
      rfl
    rw [hpop]
    exact foldl_dictPop_mem exc picked2 _ hv
  · intro vm hvm hnode htag hnotexc
    have htne : (!tags.isEmpty) = true := by
      rcases htag with ⟨tag, ht, _⟩
      cases tags with
      | nil => simp at ht
      | cons x l => rfl
    have hv : toString vm.vmid ∈ inc := by
      rw [hinc, mem_tags_go_fst]
      refine ⟨vm, hvm, hnode, rfl, ?_⟩
      rcases htag with ⟨tag, htag1, htag2⟩
      have hany : tags.any (fun t =>
          (pySplitChar ';' vm.tags).contains t) = true := by
        rw [List.any_eq_true]
        exact ⟨tag, htag1, List.elem_iff.mpr htag2⟩
      rw [htne, hany]
      rfl
    rw [if_pos htne] at hpi
    have hsome := pickIncludes_some all_vmid inc base picked2 hpi _ hv
    rw [hpop, foldl_dictPop_not_mem exc picked2 _ (by rw [hexc2]; exact hnotexc)]
    exact hsome
  · intro v hsome
    rw [hpop] at hsome
    by_cases hv : v ∈ exc
    · rw [foldl_dictPop_mem exc picked2 v hv] at hsome
      simp at hsome
    · rw [foldl_dictPop_not_mem exc picked2 v hv] at hsome
      by_cases ht : (!tags.isEmpty) = true
      · rw [if_pos ht] at hpi
        rcases pickIncludes_inv all_vmid inc base picked2 v hpi hsome with h | h
        · exact Or.inl h
        · exact Or.inr (by rw [← hinc]; exact h)
      · rw [if_neg ht] at hpi
        simp only [Except.ok.injEq] at hpi
        rw [← hpi] at hsome
        exact Or.inl hsome

theorem C6_tag_inclusion_exclusion_witness :
    envC6.clusterParse = .ok clusterC6 ∧ (["skip"] : List String) ≠ [] ∧
    (tagStage envC6 argsW allC6 [] ["prod"] ["skip"]).2 = .ok pickedC6 ∧
    pickedC6.lookup "101" = none ∧ (pickedC6.lookup "100").isSome = true :=
  ⟨rfl, by decide, by rfl,
   (C6_tag_inclusion_exclusion envC6 argsW allC6 [] pickedC6 ["prod"] ["skip"]
      clusterC6 rfl (by decide) (by rfl)).1
     ⟨101, "pve", "prod;skip"⟩ (by decide) rfl
     ⟨"skip", by decide, by decide⟩,
   (C6_tag_inclusion_exclusion envC6 argsW allC6 [] pickedC6 ["prod"] ["skip"]
      clusterC6 rfl (by decide) (by rfl)).2.1
     ⟨100, "pve", "prod"⟩ (by decide) rfl
     ⟨"prod", by decide, by decide⟩ (by decide)⟩

theorem get_vmids_go_lookup_none (env : Env) (a : Args) (exclude : List String)
    (storages : List StorageDetail) (v : String) :
    ∀ (registry : List RegEntry) (r : List (String × String)),
    (get_vmids_go env a exclude storages registry).2 = .ok r →
    (∀ e ∈ registry, e.vmid = v →
      (e.node == env.nodeName && !exclude.contains e.vmid) = false
      ∨ (vm_is_template env a e.vmid (virtOf e)).2 = .ok true
      ∨ (a.running = true ∧ (vm_is_stopped env a e.vmid (virtOf e)).2 = true)
      ∨ storage_skip storages e.vmid = true) →
    r.lookup v = none := by
  intro registry
  induction registry with
  | nil =>
    intro r hok hcond
    unfold get_vmids_go at hok
    simp only [Except.ok.injEq] at hok
    rw [← hok]
    rfl
  | cons e rest ih =>
    intro r hok hcond
    unfold get_vmids_go at hok
    by_cases hguard : (e.node == env.nodeName && !exclude.contains e.vmid) = true
    · rw [if_pos hguard] at hok
      have hcases : ((if e.vtype == "lxc" then some "pct"
            else if e.vtype == "qemu" then some "qm" else none) = none)
          ∨ ((if e.vtype == "lxc" then some "pct"
            else if e.vtype == "qemu" then some "qm" else none) = some (virtOf e)) := by
        unfold virtOf
        by_cases h1 : (e.vtype == "lxc") = true
        · rw [if_pos h1, if_pos h1]
          exact Or.inr rfl
        · rw [if_neg h1, if_neg h1]
          by_cases h2 : (e.vtype == "qemu") = true
          · rw [if_pos h2]
            exact Or.inr rfl
          · rw [if_neg h2]
            exact Or.inl rfl
      rcases hcases with hnone | hsome
      · rw [hnone] at hok
        simp at hok
      · rw [hsome] at hok
        dsimp only at hok
        rcases htmpl : vm_is_template env a e.vmid (virtOf e) with ⟨evt, rt⟩
        rw [htmpl] at hok
        cases rt with
        | error msg => simp at hok
        | ok b =>
          cases b with
          | true =>
            dsimp only at hok
            rcases hgo : get_vmids_go env a exclude storages rest with ⟨ev3, r3⟩
            rw [hgo] at hok
            dsimp only at hok
            exact ih r (by rw [hgo]; exact hok)
              (fun e' he' hv => hcond e' (List.mem_cons_of_mem e he') hv)
          | false =>
            dsimp only at hok
            rcases hstp : (if a.running then vm_is_stopped env a e.vmid (virtOf e)
                else ([], false)) with ⟨ev2, stopped⟩
            rw [hstp] at hok
            dsimp only at hok
            rcases hgo : get_vmids_go env a exclude storages rest with ⟨ev3, r3⟩
            rw [hgo] at hok
            cases stopped with
            | true =>
              rw [if_pos rfl] at hok
              dsimp only at hok
              exact ih r (by rw [hgo]; exact hok)
                (fun e' he' hv => hcond e' (List.mem_cons_of_mem e he') hv)
            | false =>
              rw [if_neg (by simp)] at hok
              by_cases hsk : storage_skip storages e.vmid = true
              · rw [if_pos hsk] at hok
                dsimp only at hok
                exact ih r (by rw [hgo]; exact hok)
                  (fun e' he' hv => hcond e' (List.mem_cons_of_mem e he') hv)
              · rw [if_neg hsk] at hok
                cases r3 with
                | error msg => simp at hok
                | ok r3 =>
                  simp only [Except.ok.injEq] at hok
                  by_cases hev : e.vmid = v
                  · exfalso
                    rcases hcond e (by simp) hev with hc | hc | hc | hc
                    · rw [hguard] at hc
                      simp at hc
                    · rw [htmpl] at hc
                      simp at hc
                    · rcases hc with ⟨hrun, hc⟩
                      rw [if_pos (by rw [hrun])] at hstp
                      rw [hstp] at hc
                      simp at hc
                    · exact hsk hc
                  · rw [← hok]
                    have hbeq : (v == e.vmid) = false := by
                      rw [beq_eq_false_iff_ne]
                      exact fun he => hev he.symm
                    simp only [List.lookup, hbeq]
                    exact ih r3 (by rw [hgo]) (fun e' he' hv =>
                      hcond e' (List.mem_cons_of_mem e he') hv)
    · rw [if_neg hguard] at hok
      exact ih r hok (fun e' he' hv => hcond e' (List.mem_cons_of_mem e he') hv)

theorem get_vmids_ok_elim (env : Env) (a : Args) (exclude : List String)
    (all_vmid : List (String × String))
    (hok : (get_vmids env a exclude).2 = .ok all_vmid) :
    ∃ registry storages,
      env.registryParse = .ok registry ∧
      (fetch_storage_details env a).2 = .ok storages ∧
      (get_vmids_go env a exclude storages registry).2 = .ok all_vmid := by
  unfold get_vmids at hok
  rcases hrc : run_command env a.useSudo ["cat", "/etc/pve/.vmlist"] with ⟨ev0, st, msg⟩
  rw [hrc] at hok
  dsimp only at hok
  split at hok
  · simp at hok
  · split at hok
    · simp at hok
    · rename_i registry heqreg
      split at hok
      · simp at hok
      · rename_i ev2 storages heqst
        rcases hgo : get_vmids_go env a exclude storages registry with ⟨ev3, r3⟩
        rw [hgo] at hok
        dsimp only at hok
        exact ⟨registry, storages, heqreg, by rw [heqst], by rw [hgo]; exact hok⟩

theorem pickExplicit_single_not_found (all_vmid : List (String × String))
    (exclude : List String) (v : String) (h : all_vmid.lookup v = none) :
    pickExplicit all_vmid exclude [v] [] = .error ("VM " ++ v ++ " not found.") := by
  unfold pickExplicit
  have hnone : (if exclude.contains v then none else all_vmid.lookup v)
      = (none : Option String) := by
    by_cases he : exclude.contains v = true
    · rw [if_pos he]
    · rw [if_neg he]
      exact h
  rw [hnone]

/-- C9: an explicitly requested guest that is present in the registry on the
local node but is a template, or stopped in only-running mode, or vetoed by
the storage-usage cutoff, is removed during enumeration, so selecting it by
explicit ID aborts the whole run with the fatal VM-not-found error instead
of skipping it with a notice. -/
theorem C9_skipped_guest_not_found (env : Env) (a : Args) (v : String)
    (e : RegEntry) (registry : List RegEntry)
    (hvall : v ≠ "all")
    (hreg : env.registryParse = .ok registry) (hmem : e ∈ registry)
    (hvm : e.vmid = v)
    (hnodup : (registry.map RegEntry.vmid).Nodup)
    (storages : List StorageDetail)
    (hst : (fetch_storage_details env a).2 = .ok storages)
    (hskip : (vm_is_template env a v (virtOf e)).2 = .ok true
      ∨ (a.running = true ∧ (vm_is_stopped env a v (virtOf e)).2 = true)
      ∨ storage_skip storages v = true)
    (all_vmid : List (String × String))
    (hok : (get_vmids env a a.exclude).2 = .ok all_vmid) :
    all_vmid.lookup v = none ∧
    (get_filtered_vmids env a [v] a.exclude [] []).2
      = .error ("VM " ++ v ++ " not found.") := by
  rcases get_vmids_ok_elim env a a.exclude all_vmid hok with
    ⟨registry2, storages2, hreg2, hst2, hgo2⟩
  rw [hreg] at hreg2
  injection hreg2 with hreg2
  subst hreg2
  rw [hst] at hst2
  injection hst2 with hst2
  subst hst2
  have hnone : all_vmid.lookup v = none := by
    apply get_vmids_go_lookup_none env a a.exclude storages v registry all_vmid hgo2
    intro e2 he2 hv2
    have he2e : e2 = e :=
      List.inj_on_of_nodup_map hnodup he2 hmem (by rw [hv2, hvm])
    subst he2e
    rw [hv2]
    rcases hskip with h | h | h
    · exact Or.inr (Or.inl h)
    · exact Or.inr (Or.inr (Or.inl h))
    · exact Or.inr (Or.inr (Or.inr h))
  refine ⟨hnone, ?_⟩
  unfold get_filtered_vmids
  rcases hgv : get_vmids env a a.exclude with ⟨ev, r⟩
  rw [hgv] at hok
  dsimp only at hok
  subst hok
  dsimp only
  have hps : pickStage all_vmid [v] a.exclude
      = .error ("VM " ++ v ++ " not found.") := by
    unfold pickStage
    have hco : ([v].contains "all") = false := by
      rw [Bool.eq_false_iff]
      intro hc
      have : "all" = v := by simpa using List.elem_iff.mp hc
      exact hvall this.symm
    rw [if_neg (by simp [hco]; exact fun h => hvall h.symm), if_pos (by rfl)]
    exact pickExplicit_single_not_found all_vmid a.exclude v hnone
  rw [hps]

theorem C9_skipped_guest_not_found_witness :
    ("55" : String) ≠ "all" ∧
    envC9.registryParse = .ok regC9 ∧
    (⟨"55", "pve", "lxc"⟩ : RegEntry) ∈ regC9 ∧
    (regC9.map RegEntry.vmid).Nodup ∧
    (fetch_storage_details envC9 argsW).2 = .ok [] ∧
    (vm_is_template envC9 argsW "55" (virtOf ⟨"55", "pve", "lxc"⟩)).2 = .ok true ∧
    (get_vmids envC9 argsW argsW.exclude).2 = .ok [("100", "pct")] ∧
    (List.lookup "55" [("100", "pct")] = none ∧
      (get_filtered_vmids envC9 argsW ["55"] argsW.exclude [] []).2
        = .error ("VM " ++ "55" ++ " not found.")) :=
  ⟨by decide, rfl, by decide, by decide, rfl, by rfl, by rfl,
    C9_skipped_guest_not_found envC9 argsW "55" ⟨"55", "pve", "lxc"⟩ regC9
      (by decide) rfl (by decide) rfl (by decide) [] rfl (Or.inl (by rfl))
      [("100", "pct")] (by rfl)⟩

/-- C8: if the sentinel 'all' appears anywhere in the explicit guest-ID list,
the selection ignores every other explicitly listed ID (the outcome is the
one of the list consisting only of 'all'), and with no tag filters the
picked set is exactly the whole enumerated set, so an absent ID listed
alongside 'all' raises no 'VM not found' error. -/
theorem C8_all_sentinel (env : Env) (a : Args)
    (vmids exclude tags etags : List String)
    (h : vmids.contains "all" = true) :
    get_filtered_vmids env a vmids exclude tags etags
      = get_filtered_vmids env a ["all"] exclude tags etags ∧
    get_filtered_vmids env a vmids exclude [] [] = get_vmids env a exclude := by
  have hne : vmids.isEmpty = false := by
    cases vmids with
    | nil => exact absurd h (by decide)
    | cons x l => rfl
  have hps : ∀ av ex, pickStage av vmids ex = .ok av := by
    intro av ex
    unfold pickStage
    rw [if_pos (by rw [hne]; simp only [Bool.not_false, Bool.true_and]; exact h)]
  constructor
  · unfold get_filtered_vmids
    rcases hg : get_vmids env a exclude with ⟨ev, r⟩
    cases r with
    | error e => rfl
    | ok av =>
      dsimp only
      rw [hps, show pickStage av ["all"] exclude = .ok av from rfl]
  · unfold get_filtered_vmids
    rcases hg : get_vmids env a exclude with ⟨ev, r⟩
    cases r with
    | error e => rfl
    | ok av =>
      dsimp only
      rw [hps]
      dsimp only [tagStage]
      simp

theorem C8_all_sentinel_witness :
    (["all", "999"] : List String).contains "all" = true ∧
    (get_filtered_vmids envC9 argsW ["all", "999"] [] [] []
       = get_filtered_vmids envC9 argsW ["all"] [] [] [] ∧
     get_filtered_vmids envC9 argsW ["all", "999"] [] [] []
       = get_vmids envC9 argsW []) ∧
    (get_filtered_vmids envC9 argsW ["all", "999"] [] [] []).2
       = .ok [("100", "pct")] :=
  ⟨by decide,
   C8_all_sentinel envC9 argsW ["all", "999"] [] [] [] (by decide),
   by rfl⟩

theorem foldActs_const_ok (f : String × String → List Event)
    (l : List (String × String)) :
    (foldActs (fun g => (f g, Except.ok ())) l).2 = Except.ok () := by
  induction l with
  | nil => rfl
  | cons g rest ih =>
    unfold foldActs
    dsimp only
    rcases hr : foldActs (fun g => (f g, Except.ok ())) rest with ⟨ev2, r2⟩
    rw [hr] at ih
    dsimp only at ih ⊢
    exact ih

/-- C5 counterexample: with no lock held and no selection criterion supplied,
the run is an argparse usage error and the process exits with status 2,
not with status 1 as the claim states. -/
theorem C5_exit_codes_counterexample :
    (mainRun envC9 argsNC).2 = 2 ∧ (mainRun envC9 argsNC).2 ≠ 1 :=
  ⟨by rfl, by decide⟩

/-- C5 amended: lock contention exits 1; a missing selection criterion is an
argparse usage error and exits 2; a fatal selection error (registry, guest
type, explicit ID not found, version gate) exits 1; when selection succeeds,
the snapshot-create path and the no-action help path exit 0 whatever the
per-guest command results were; a fatal error raised while pruning (a failed
listsnapshot query) exits 1. -/
theorem C5_exit_codes_amended (env : Env) (a : Args) :
    (env.pidFileExists = true → (mainRun env a).2 = 1) ∧
    (env.pidFileExists = false →
      (a.vmid.isEmpty && a.tags.isEmpty && a.exclude_tags.isEmpty) = true →
      (mainRun env a).2 = 2) ∧
    (∀ e, env.pidFileExists = false →
      (a.vmid.isEmpty && a.tags.isEmpty && a.exclude_tags.isEmpty) = false →
      (get_filtered_vmids env a a.vmid a.exclude a.tags a.exclude_tags).2
        = .error e →
      (mainRun env a).2 = 1) ∧
    (∀ picked, env.pidFileExists = false →
      (a.vmid.isEmpty && a.tags.isEmpty && a.exclude_tags.isEmpty) = false →
      (get_filtered_vmids env a a.vmid a.exclude a.tags a.exclude_tags).2
        = .ok picked →
      (a.snap = true ∨
        (a.snap = false ∧ a.clean = false ∧ a.autosnap = false ∧
          zfsDest a = none)) →
      (mainRun env a).2 = 0) ∧
    (∀ picked e, env.pidFileExists = false →
      (a.vmid.isEmpty && a.tags.isEmpty && a.exclude_tags.isEmpty) = false →
      (get_filtered_vmids env a a.vmid a.exclude a.tags a.exclude_tags).2
        = .ok picked →
      a.snap = false → a.clean = true →
      (foldActs (fun g => remove_snapshot env a g.1 g.2 a.label a.keep)
        picked).2 = .error e →
      (mainRun env a).2 = 1) := by
  refine ⟨?_, ?_, ?_, ?_, ?_⟩
  · intro hl
    unfold mainRun
    rw [if_pos hl]
  · intro hl hc
    unfold mainRun
    rw [if_neg (by simp [hl]), if_pos hc]
  · intro e hl hc hge
    unfold mainRun
    rw [if_neg (by simp [hl]), if_neg (by simp [hc])]
    rcases hg : get_filtered_vmids env a a.vmid a.exclude a.tags a.exclude_tags
      with ⟨ev, r⟩
    rw [hg] at hge
    dsimp only at hge
    rw [hge]
  · intro picked hl hc hgo hcase
    unfold mainRun
    rw [if_neg (by simp [hl]), if_neg (by simp [hc])]
    rcases hg : get_filtered_vmids env a a.vmid a.exclude a.tags a.exclude_tags
      with ⟨ev, r⟩
    rw [hg] at hgo
    dsimp only at hgo
    rw [hgo]
    dsimp only
    rcases hcase with hsnap | ⟨hs, hcl, ha, hz⟩
    · rw [if_pos hsnap]
      rcases hf : foldActs
          (fun g => (create_snapshot env a g.1 g.2 a.label, Except.ok ()))
          picked with ⟨ev2, r2⟩
      have hok := foldActs_const_ok
        (fun g => create_snapshot env a g.1 g.2 a.label) picked
      rw [hf] at hok
      dsimp only at hok
      rw [hok]
    · rw [if_neg (by simp [hs]), if_neg (by simp [hcl]),
        if_neg (by simp [ha]), hz]
  · intro picked e hl hc hgo hs hcl hfe
    unfold mainRun
    rw [if_neg (by simp [hl]), if_neg (by simp [hc])]
    rcases hg : get_filtered_vmids env a a.vmid a.exclude a.tags a.exclude_tags
      with ⟨ev, r⟩
    rw [hg] at hgo
    dsimp only at hgo
    rw [hgo]
    dsimp only
    rw [if_neg (by simp [hs]), if_pos hcl]
    rcases hf : foldActs
        (fun g => remove_snapshot env a g.1 g.2 a.label a.keep) picked
      with ⟨ev2, r2⟩
    rw [hf] at hfe
    dsimp only at hfe
    rw [hfe]

theorem C5_exit_codes_amended_witness :
    envC9.pidFileExists = false ∧
    (argsNC.vmid.isEmpty && argsNC.tags.isEmpty
      && argsNC.exclude_tags.isEmpty) = true ∧
    (mainRun envC9 argsNC).2 = 2 ∧
    (mainRun { envC9 with pidFileExists := true } argsNC).2 = 1 ∧
    (mainRun envC9 argsW).2 = 0 :=
  ⟨rfl, by decide,
   (C5_exit_codes_amended envC9 argsNC).2.1 rfl (by decide),
   (C5_exit_codes_amended { envC9 with pidFileExists := true } argsNC).1 rfl,
   (C5_exit_codes_amended envC9 argsW).2.2.2.1 [("100", "pct")] rfl
     (by decide) (by rfl) (Or.inr ⟨rfl, rfl, rfl, rfl⟩)⟩

theorem noMut_append (l1 l2 : List Event) :
    noMut (l1 ++ l2) = (noMut l1 && noMut l2) := List.all_append

theorem noMut_iff (l : List Event) :
    noMut l = true ↔ ∀ e ∈ l, isMutating e = false := by
  simp [noMut, List.all_eq_true]

theorem noMut_opt_print (b : Bool) (s : String) :
    noMut (if b then [Event.printLine s] else []) = true := by
  cases b <;> rfl

theorem noMut_flatten (L : List (List Event))
    (h : ∀ l ∈ L, noMut l = true) : noMut L.flatten = true := by
  induction L with
  | nil => rfl
  | cons l rest ih =>
    rw [List.flatten_cons, noMut_append, h l (List.mem_cons_self l rest),
      ih (fun x hx => h x (List.mem_cons_of_mem l hx))]
    rfl

theorem run_command_wrap (env : Env) (s : Bool) (c : List String) :
    run_command env s c false
      = ([Event.exec (sudoWrap s c)], env.run (sudoWrap s c)) := by
  cases s <;> rfl

theorem noMut_run (env : Env) (s : Bool) (c : List String) (f : Bool)
    (h1 : isMutating (Event.exec c) = false)
    (h2 : isMutating (Event.exec ("sudo" :: c)) = false) :
    noMut (run_command env s c f).1 = true := by
  cases s <;> cases f <;> simp [run_command, noMut, h1, h2]

theorem isMutating_virt_plain (virt action vmid : String)
    (hv : virt = "pct" ∨ virt = "qm")
    (ha : action = "config" ∨ action = "status" ∨ action = "listsnapshot") :
    isMutating (Event.exec [virt, action, vmid]) = false := by
  rcases hv with h | h <;> rcases ha with h2 | h2 | h2 <;> subst h <;>
    subst h2 <;> rfl

theorem isMutating_virt_sudo (virt action vmid : String)
    (hv : virt = "pct" ∨ virt = "qm")
    (ha : action = "config" ∨ action = "status" ∨ action = "listsnapshot") :
    isMutating (Event.exec ["sudo", virt, action, vmid]) = false := by
  rcases hv with h | h <;> rcases ha with h2 | h2 | h2 <;> subst h <;>
    subst h2 <;> rfl

theorem noMut_get_pve_config (env : Env) (a : Args) (vmid virt : String)
    (hv : virt = "pct" ∨ virt = "qm") :
    noMut (get_pve_config env a vmid virt).1 = true := by
  unfold get_pve_config
  rcases hrc : run_command env a.useSudo [virt, "config", vmid] with ⟨ev, r⟩
  have h := noMut_run env a.useSudo [virt, "config", vmid] false
    (isMutating_virt_plain virt "config" vmid hv (Or.inl rfl))
    (isMutating_virt_sudo virt "config" vmid hv (Or.inl rfl))
  rw [hrc] at h
  dsimp only at h ⊢
  split <;> exact h

theorem noMut_vm_is_template (env : Env) (a : Args) (vmid virt : String)
    (hv : virt = "pct" ∨ virt = "qm") :
    noMut (vm_is_template env a vmid virt).1 = true := by
  unfold vm_is_template
  rcases hc : get_pve_config env a vmid virt with ⟨ev, r⟩
  have h := noMut_get_pve_config env a vmid virt hv
  rw [hc] at h
  dsimp only at h
  cases r with
  | error e => exact h
  | ok cfg =>
    dsimp only
    split
    · rw [noMut_append, h, noMut_opt_print]
      rfl
    · exact h

theorem noMut_vm_is_stopped (env : Env) (a : Args) (vmid virt : String)
    (hv : virt = "pct" ∨ virt = "qm") :
    noMut (vm_is_stopped env a vmid virt).1 = true := by
  unfold vm_is_stopped
  rcases hrc : run_command env a.useSudo [virt, "status", vmid] with ⟨ev, r⟩
  have h := noMut_run env a.useSudo [virt, "status", vmid] false
    (isMutating_virt_plain virt "status" vmid hv (Or.inr (Or.inl rfl)))
    (isMutating_virt_sudo virt "status" vmid hv (Or.inr (Or.inl rfl)))
  rw [hrc] at h
  dsimp only at h ⊢
  split
  · rw [noMut_append, h, noMut_opt_print]
    rfl
  · exact h

theorem noMut_fetch_storage_details (env : Env) (a : Args) :
    noMut (fetch_storage_details env a).1 = true := by
  unfold fetch_storage_details
  split
  · rfl
  · rcases hrc : run_command env a.useSudo
        ["pvesh", "get", "/nodes/" ++ env.nodeName ++ "/storage",
         "--content", "rootdir", "--enabled", "1",
         "--output-format", "json"] with ⟨ev, r⟩
    have h := noMut_run env a.useSudo
      ["pvesh", "get", "/nodes/" ++ env.nodeName ++ "/storage",
       "--content", "rootdir", "--enabled", "1",
       "--output-format", "json"] false rfl rfl
    rw [hrc] at h
    dsimp only at h ⊢
    split <;> exact h

theorem virt_match_cases (b1 b2 : Bool) (virt : String)
    (h : (if b1 then some "pct" else if b2 then some "qm" else none)
      = some virt) : virt = "pct" ∨ virt = "qm" := by
  split at h
  · exact Or.inl (Option.some.inj h).symm
  · split at h
    · exact Or.inr (Option.some.inj h).symm
    · cases h

theorem noMut_get_vmids_go (env : Env) (a : Args) (exclude : List String)
    (storages : List StorageDetail) :
    ∀ registry : List RegEntry,
    noMut (get_vmids_go env a exclude storages registry).1 = true := by
  intro registry
  induction registry with
  | nil => rfl
  | cons e rest ih =>
    unfold get_vmids_go
    split
    · rcases hvt : (if e.vtype == "lxc" then some "pct"
          else if e.vtype == "qemu" then some "qm" else none) with _ | virt
      · rfl
      · have hv := virt_match_cases _ _ virt hvt
        dsimp only
        rcases ht : vm_is_template env a e.vmid virt with ⟨ev, rt⟩
        have hnm := noMut_vm_is_template env a e.vmid virt hv
        rw [ht] at hnm
        dsimp only at hnm
        cases rt with
        | error msg => exact hnm
        | ok b =>
          cases b with
          | true =>
            dsimp only
            rcases hgo : get_vmids_go env a exclude storages rest with ⟨ev3, r3⟩
            rw [hgo] at ih
            dsimp only at ih ⊢
            rw [noMut_append, hnm, ih]
            rfl
          | false =>
            dsimp only
            rcases hst : (if a.running then vm_is_stopped env a e.vmid virt
                else ([], false)) with ⟨ev2, stopped⟩
            have hnm2 : noMut ev2 = true := by
              have : noMut (if a.running then vm_is_stopped env a e.vmid virt
                  else ([], false)).1 = true := by
                split
                · exact noMut_vm_is_stopped env a e.vmid virt hv
                · rfl
              rw [hst] at this
              exact this
            dsimp only
            cases stopped with
            | true =>
              rw [if_pos rfl]
              rcases hgo : get_vmids_go env a exclude storages rest
                with ⟨ev3, r3⟩
              rw [hgo] at ih
              dsimp only at ih ⊢
              rw [noMut_append, noMut_append, hnm, hnm2, ih]
              rfl
            | false =>
              rw [if_neg (by simp)]
              split
              · rcases hgo : get_vmids_go env a exclude storages rest
                  with ⟨ev3, r3⟩
                rw [hgo] at ih
                dsimp only at ih ⊢
                rw [noMut_append, noMut_append, noMut_append, hnm, hnm2, ih,
                  noMut_opt_print]
                rfl
              · rcases hgo : get_vmids_go env a exclude storages rest
                  with ⟨ev3, r3⟩
                rw [hgo] at ih
                dsimp only at ih
                cases r3 with
                | error msg =>
                  rw [noMut_append, noMut_append, hnm, hnm2, ih]
                  rfl
                | ok l =>
                  rw [noMut_append, noMut_append, hnm, hnm2, ih]
                  rfl
    · exact ih

theorem noMut_get_vmids (env : Env) (a : Args) (exclude : List String) :
    noMut (get_vmids env a exclude).1 = true := by
  unfold get_vmids
  rcases hrc : run_command env a.useSudo ["cat", "/etc/pve/.vmlist"]
    with ⟨ev, r⟩
  have h := noMut_run env a.useSudo ["cat", "/etc/pve/.vmlist"] false
    (by decide) (by decide)
  rw [hrc] at h
  dsimp only at h ⊢
  split
  · exact h
  · cases env.registryParse with
    | error e => exact h
    | ok registry =>
      dsimp only
      rcases hfs : fetch_storage_details env a with ⟨ev2, r2⟩
      have h2 := noMut_fetch_storage_details env a
      rw [hfs] at h2
      dsimp only at h2
      cases r2 with
      | error e =>
        dsimp only
        rw [noMut_append, h, h2]
        rfl
      | ok storages =>
        dsimp only
        rcases hgo : get_vmids_go env a exclude storages registry
          with ⟨ev3, r3⟩
        have h3 := noMut_get_vmids_go env a exclude storages registry
        rw [hgo] at h3
        dsimp only at h3 ⊢
        rw [noMut_append, noMut_append, h, h2, h3]
        rfl

theorem noMut_get_proxmox_version (env : Env) (a : Args) :
    noMut (get_proxmox_version env a).1 = true := by
  unfold get_proxmox_version
  rcases hrc : run_command env a.useSudo ["pveversion"] true with ⟨ev, r⟩
  have h := noMut_run env a.useSudo ["pveversion"] true (by decide) (by decide)
  rw [hrc] at h
  dsimp only at h ⊢
  split <;> exact h

theorem noMut_get_vmids_by_tags (env : Env) (a : Args)
    (tags etags : List String) :
    noMut (get_vmids_by_tags env a tags etags).1 = true := by
  unfold get_vmids_by_tags
  rcases hrc : run_command env a.useSudo
      ["pvesh", "get", "/cluster/resources", "--type", "vm",
       "--output-format", "json"] with ⟨ev, r⟩
  have h := noMut_run env a.useSudo
    ["pvesh", "get", "/cluster/resources", "--type", "vm",
     "--output-format", "json"] false (by decide) (by decide)
  rw [hrc] at h
  dsimp only at h ⊢
  split
  · exact h
  · cases env.clusterParse with
    | error e => exact h
    | ok cluster => exact h

theorem noMut_tagStage (env : Env) (a : Args)
    (all_vmid picked : List (String × String))
    (tags etags : List String) :
    noMut (tagStage env a all_vmid picked tags etags).1 = true := by
  unfold tagStage
  split
  · rcases hv : get_proxmox_version env a with ⟨evv, rv⟩
    have h := noMut_get_proxmox_version env a
    rw [hv] at h
    dsimp only at h
    cases rv with
    | error e => exact h
    | ok ver =>
      dsimp only
      split
      · exact h
      · rcases htg : get_vmids_by_tags env a tags etags with ⟨evt, rt⟩
        have h2 := noMut_get_vmids_by_tags env a tags etags
        rw [htg] at h2
        dsimp only at h2
        cases rt with
        | error e =>
          dsimp only
          rw [noMut_append, h, h2]
          rfl
        | ok p =>
          obtain ⟨inc, exc⟩ := p
          dsimp only
          split
          · rw [noMut_append, h, h2]
            rfl
          · rw [noMut_append, h, h2]
            rfl
  · rfl

theorem noMut_get_filtered_vmids (env : Env) (a : Args)
    (vmids exclude tags etags : List String) :
    noMut (get_filtered_vmids env a vmids exclude tags etags).1 = true := by
  unfold get_filtered_vmids
  rcases hg : get_vmids env a exclude with ⟨ev, r⟩
  have h := noMut_get_vmids env a exclude
  rw [hg] at h
  dsimp only at h ⊢
  cases r with
  | error e => exact h
  | ok all_vmid =>
    dsimp only
    split
    · exact h
    · rename_i picked heq
      rcases hts : tagStage env a all_vmid picked tags etags with ⟨ev2, r2⟩
      have h2 := noMut_tagStage env a all_vmid picked tags etags
      rw [hts] at h2
      dsimp only at h2 ⊢
      rw [noMut_append, h, h2]
      rfl

theorem pickExplicit_error (all_vmid : List (String × String))
    (exclude : List String) :
    ∀ (vmids : List String) (picked : List (String × String)),
    (∃ v ∈ vmids,
      (if exclude.contains v then none else all_vmid.lookup v) = none) →
    ∃ w ∈ vmids, pickExplicit all_vmid exclude vmids picked
      = .error ("VM " ++ w ++ " not found.") := by
  intro vmids
  induction vmids with
  | nil =>
    intro picked h
    obtain ⟨x, hx, _⟩ := h
    cases hx
  | cons v rest ih =>
    intro picked h
    rcases hm : (if exclude.contains v then none else all_vmid.lookup v)
      with _ | virt
    · exact ⟨v, List.mem_cons_self v rest, by unfold pickExplicit; rw [hm]⟩
    · obtain ⟨x, hx, hcond⟩ := h
      rcases List.mem_cons.mp hx with hxv | hxr
      · subst hxv
        rw [hm] at hcond
        cases hcond
      · obtain ⟨w, hw, heq⟩ := ih (dictInsert picked v virt) ⟨x, hxr, hcond⟩
        exact ⟨w, List.mem_cons_of_mem v hw,
          by unfold pickExplicit; rw [hm]; exact heq⟩

/-- C3: an explicitly requested guest ID, other than the sentinel, that is
absent from the enumerated non-excluded set makes the whole run abort with a
'VM ... not found.' message, the process exits with status 1, and no
mutating snapshot command appears anywhere in the run's trace. -/
theorem C3_explicit_not_found (env : Env) (a : Args) (v : String)
    (all_vmid : List (String × String))
    (hl : env.pidFileExists = false)
    (hv : v ∈ a.vmid)
    (hall : a.vmid.contains "all" = false)
    (hga : (get_vmids env a a.exclude).2 = .ok all_vmid)
    (habs : (if a.exclude.contains v then none
        else all_vmid.lookup v) = none) :
    ∃ w, Event.printLine ("VM " ++ w ++ " not found.") ∈ (mainRun env a).1 ∧
      (mainRun env a).2 = 1 ∧
      ∀ e ∈ (mainRun env a).1, isMutating e = false := by
  have hne : a.vmid.isEmpty = false := by
    cases hvm : a.vmid with
    | nil => rw [hvm] at hv; cases hv
    | cons x l => rfl
  unfold mainRun
  rw [if_neg (by simp [hl]), if_neg (by simp [hne])]
  unfold get_filtered_vmids
  rcases hg : get_vmids env a a.exclude with ⟨ev, r⟩
  rw [hg] at hga
  dsimp only at hga
  subst hga
  dsimp only
  obtain ⟨w, hw, heq⟩ :=
    pickExplicit_error all_vmid a.exclude a.vmid [] ⟨v, hv, habs⟩
  have heqs : pickStage all_vmid a.vmid a.exclude
      = .error ("VM " ++ w ++ " not found.") := by
    unfold pickStage
    rw [if_neg (by
      intro hcontra
      have hc := (Bool.and_eq_true _ _).mp hcontra
      rw [hall] at hc
      exact Bool.false_ne_true hc.2), if_pos (by simp [hne])]
    exact heq
  rw [heqs]
  dsimp only
  refine ⟨w, List.mem_append_right ev (List.mem_singleton.mpr rfl), rfl, ?_⟩
  intro e he
  rcases List.mem_append.mp he with h1 | h2
  · have hm := noMut_get_vmids env a a.exclude
    rw [hg] at hm
    dsimp only at hm
    exact (noMut_iff ev).mp hm e h1
  · rw [List.mem_singleton] at h2
    subst h2
    rfl

theorem C3_explicit_not_found_witness :
    envC9.pidFileExists = false ∧ ("999" : String) ∈ argsC3.vmid ∧
    argsC3.vmid.contains "all" = false ∧
    (get_vmids envC9 argsC3 argsC3.exclude).2 = .ok [("100", "pct")] ∧
    (if argsC3.exclude.contains "999" then none
      else List.lookup "999" [("100", "pct")]) = none ∧
    (∃ w, Event.printLine ("VM " ++ w ++ " not found.")
        ∈ (mainRun envC9 argsC3).1 ∧
      (mainRun envC9 argsC3).2 = 1 ∧
      ∀ e ∈ (mainRun envC9 argsC3).1, isMutating e = false) :=
  ⟨rfl, by decide, by decide, by rfl, by rfl,
   C3_explicit_not_found envC9 argsC3 "999" [("100", "pct")] rfl (by decide)
     (by decide) (by rfl) (by rfl)⟩

theorem lookup_val_mem {α : Type} (k : String) (v : α) :
    ∀ d : List (String × α), d.lookup k = some v → ∃ k', (k', v) ∈ d := by
  intro d
  induction d with
  | nil => intro h; cases h
  | cons p rest ih =>
    obtain ⟨pk, pv⟩ := p
    intro h
    cases hk : (k == pk) with
    | true =>
      simp only [List.lookup, hk] at h
      exact ⟨pk, by rw [← Option.some.inj h]; exact List.mem_cons_self _ _⟩
    | false =>
      simp only [List.lookup, hk] at h
      obtain ⟨k', hk'⟩ := ih h
      exact ⟨k', List.mem_cons_of_mem _ hk'⟩

theorem dictInsert_vals {α : Type} (Q : α → Prop) (d : List (String × α))
    (k : String) (v : α) (hd : ∀ p ∈ d, Q p.2) (hv : Q v) :
    ∀ p ∈ dictInsert d k v, Q p.2 := by
  intro p hp
  unfold dictInsert at hp
  split at hp
  · rw [List.mem_map] at hp
    obtain ⟨q, hq, hqe⟩ := hp
    by_cases hqk : (q.1 == k) = true
    · rw [if_pos hqk] at hqe
      rw [← hqe]
      exact hv
    · rw [if_neg hqk] at hqe
      rw [← hqe]
      exact hd q hq
  · rcases List.mem_append.mp hp with h1 | h2
    · exact hd p h1
    · rw [List.mem_singleton] at h2
      rw [h2]
      exact hv

theorem dictPop_vals {α : Type} (Q : α → Prop) (d : List (String × α))
    (k : String) (hd : ∀ p ∈ d, Q p.2) :
    ∀ p ∈ dictPop d k, Q p.2 := by
  intro p hp
  exact hd p (List.mem_of_mem_filter hp)

theorem foldl_dictPop_vals {α : Type} (Q : α → Prop) :
    ∀ (ks : List String) (d : List (String × α)), (∀ p ∈ d, Q p.2) →
    ∀ p ∈ ks.foldl dictPop d, Q p.2 := by
  intro ks
  induction ks with
  | nil => intro d hd; exact hd
  | cons key rest ih =>
    intro d hd
    exact ih (dictPop d key) (dictPop_vals Q d key hd)

theorem pickExplicit_vals (Q : String → Prop)
    (all_vmid : List (String × String)) (exclude : List String)
    (hall : ∀ p ∈ all_vmid, Q p.2) :
    ∀ (vmids : List String) (picked l : List (String × String)),
    (∀ p ∈ picked, Q p.2) →
    pickExplicit all_vmid exclude vmids picked = .ok l →
    ∀ p ∈ l, Q p.2 := by
  intro vmids
  induction vmids with
  | nil =>
    intro picked l hp h
    rw [← Except.ok.inj h]
    exact hp
  | cons v rest ih =>
    intro picked l hp h
    unfold pickExplicit at h
    rcases hm : (if exclude.contains v then none else all_vmid.lookup v)
      with _ | virt
    · rw [hm] at h
      cases h
    · rw [hm] at h
      have hqv : Q virt := by
        split at hm
        · cases hm
        · obtain ⟨k', hk'⟩ := lookup_val_mem v virt all_vmid hm
          exact hall (k', virt) hk'
      exact ih (dictInsert picked v virt) l
        (dictInsert_vals Q picked v virt hp hqv) h

theorem pickIncludes_vals (Q : String → Prop)
    (all_vmid : List (String × String))
    (hall : ∀ p ∈ all_vmid, Q p.2) :
    ∀ (vmids : List String) (picked l : List (String × String)),
    (∀ p ∈ picked, Q p.2) →
    pickIncludes all_vmid vmids picked = .ok l →
    ∀ p ∈ l, Q p.2 := by
  intro vmids
  induction vmids with
  | nil =>
    intro picked l hp h
    rw [← Except.ok.inj h]
    exact hp
  | cons v rest ih =>
    intro picked l hp h
    unfold pickIncludes at h
    rcases hm : all_vmid.lookup v with _ | virt
    · rw [hm] at h
      cases h
    · rw [hm] at h
      have hqv : Q virt := by
        obtain ⟨k', hk'⟩ := lookup_val_mem v virt all_vmid hm
        exact hall (k', virt) hk'
      exact ih (dictInsert picked v virt) l
        (dictInsert_vals Q picked v virt hp hqv) h

theorem pickStage_vals (Q : String → Prop)
    (all_vmid : List (String × String)) (vmids exclude : List String)
    (l : List (String × String))
    (hall : ∀ p ∈ all_vmid, Q p.2)
    (h : pickStage all_vmid vmids exclude = .ok l) :
    ∀ p ∈ l, Q p.2 := by
  unfold pickStage at h
  split at h
  · rw [← Except.ok.inj h]
    exact hall
  · split at h
    · exact pickExplicit_vals Q all_vmid exclude hall vmids [] l
        (by intro p hp; cases hp) h
    · rw [← Except.ok.inj h]
      intro p hp
      cases hp

theorem get_vmids_go_vals (env : Env) (a : Args) (exclude : List String)
    (storages : List StorageDetail) :
    ∀ (registry : List RegEntry) (l : List (String × String)),
    (get_vmids_go env a exclude storages registry).2 = .ok l →
    ∀ p ∈ l, p.2 = "pct" ∨ p.2 = "qm" := by
  intro registry
  induction registry with
  | nil =>
    intro l hok
    unfold get_vmids_go at hok
    simp only [Except.ok.injEq] at hok
    rw [← hok]
    intro p hp
    cases hp
  | cons e rest ih =>
    intro l hok
    unfold get_vmids_go at hok
    split at hok
    · rcases hvt : (if e.vtype == "lxc" then some "pct"
          else if e.vtype == "qemu" then some "qm" else none) with _ | virt
      · rw [hvt] at hok
        cases hok
      · rw [hvt] at hok
        have hv := virt_match_cases _ _ virt hvt
        dsimp only at hok
        rcases htmpl : vm_is_template env a e.vmid virt with ⟨evt, rt⟩
        rw [htmpl] at hok
        cases rt with
        | error msg => cases hok
        | ok b =>
          cases b with
          | true =>
            dsimp only at hok
            rcases hgo : get_vmids_go env a exclude storages rest
              with ⟨ev3, r3⟩
            rw [hgo] at hok
            dsimp only at hok
            exact ih l (by rw [hgo]; exact hok)
          | false =>
            dsimp only at hok
            rcases hstp : (if a.running then vm_is_stopped env a e.vmid virt
                else ([], false)) with ⟨ev2, stopped⟩
            rw [hstp] at hok
            dsimp only at hok
            rcases hgo : get_vmids_go env a exclude storages rest
              with ⟨ev3, r3⟩
            rw [hgo] at hok
            cases stopped with
            | true =>
              rw [if_pos rfl] at hok
              dsimp only at hok
              exact ih l (by rw [hgo]; exact hok)
            | false =>
              rw [if_neg (by simp)] at hok
              split at hok
              · dsimp only at hok
                exact ih l (by rw [hgo]; exact hok)
              · cases r3 with
                | error msg => cases hok
                | ok r3 =>
                  simp only [Except.ok.injEq] at hok
                  rw [← hok]
                  intro p hp
                  rcases List.mem_cons.mp hp with hp1 | hp2
                  · rw [hp1]
                    exact hv
                  · exact ih r3 (by rw [hgo]) p hp2
    · exact ih l hok

theorem get_vmids_vals (env : Env) (a : Args) (exclude : List String)
    (all_vmid : List (String × String))
    (h : (get_vmids env a exclude).2 = .ok all_vmid) :
    ∀ p ∈ all_vmid, p.2 = "pct" ∨ p.2 = "qm" := by
  obtain ⟨registry, storages, _, _, hgo⟩ := get_vmids_ok_elim env a exclude
    all_vmid h
  exact get_vmids_go_vals env a exclude storages registry all_vmid hgo

theorem tagStage_vals (Q : String → Prop) (env : Env) (a : Args)
    (all_vmid picked : List (String × String))
    (tags etags : List String) (l : List (String × String))
    (hall : ∀ p ∈ all_vmid, Q p.2) (hp : ∀ p ∈ picked, Q p.2)
    (h : (tagStage env a all_vmid picked tags etags).2 = .ok l) :
    ∀ p ∈ l, Q p.2 := by
  unfold tagStage at h
  split at h
  · rcases hv : get_proxmox_version env a with ⟨evv, rv⟩
    rw [hv] at h
    cases rv with
    | error e => cases h
    | ok ver =>
      dsimp only at h
      split at h
      · cases h
      · rcases htg : get_vmids_by_tags env a tags etags with ⟨evt, rt⟩
        rw [htg] at h
        cases rt with
        | error e => cases h
        | ok pr =>
          obtain ⟨inc, exc⟩ := pr
          dsimp only at h
          rcases hpi : (if !tags.isEmpty then pickIncludes all_vmid inc picked
              else .ok picked) with e2 | picked2
          · rw [hpi] at h
            cases h
          · rw [hpi] at h
            dsimp only at h
            have hp2 : ∀ p ∈ picked2, Q p.2 := by
              split at hpi
              · exact pickIncludes_vals Q all_vmid hall inc picked picked2
                  hp hpi
              · rw [← Except.ok.inj hpi]
                exact hp
            simp only [Except.ok.injEq] at h
            rw [← h]
            split
            · exact foldl_dictPop_vals Q exc picked2 hp2
            · exact hp2
  · simp only [Except.ok.injEq] at h
    rw [← h]
    exact hp

theorem get_filtered_vals (env : Env) (a : Args)
    (vmids exclude tags etags : List String)
    (picked : List (String × String))
    (h : (get_filtered_vmids env a vmids exclude tags etags).2 = .ok picked) :
    ∀ p ∈ picked, p.2 = "pct" ∨ p.2 = "qm" := by
  unfold get_filtered_vmids at h
  rcases hg : get_vmids env a exclude with ⟨ev, r⟩
  rw [hg] at h
  cases r with
  | error e => cases h
  | ok all_vmid =>
    have hall := get_vmids_vals env a exclude all_vmid (by rw [hg])
    dsimp only at h
    rcases hps : pickStage all_vmid vmids exclude with e2 | picked1
    · rw [hps] at h
      cases h
    · rw [hps] at h
      have hp1 := pickStage_vals (fun s => s = "pct" ∨ s = "qm") all_vmid
        vmids exclude picked1 hall hps
      dsimp only at h
      rcases hts : tagStage env a all_vmid picked1 tags etags with ⟨ev2, r2⟩
      rw [hts] at h
      dsimp only at h
      exact tagStage_vals (fun s => s = "pct" ∨ s = "qm") env a all_vmid
        picked1 tags etags picked hall hp1 (by rw [hts]; exact h)

theorem noMut_create_snapshot_dry (env : Env) (a : Args)
    (vmid virt : String) (label : Label) (hd : a.dryrun = true) :
    noMut (create_snapshot env a vmid virt label) = true := by
  unfold create_snapshot
  rw [if_pos hd]
  rfl

theorem noMut_del_one_dry (env : Env) (a : Args) (vmid virt old : String)
    (hd : a.dryrun = true) :
    noMut (del_one env a vmid virt old) = true := by
  unfold del_one
  rw [if_pos hd]
  rfl

theorem noMut_remove_snapshot_dry (env : Env) (a : Args)
    (vmid virt : String) (label : Label) (keep : Int)
    (hv : virt = "pct" ∨ virt = "qm") (hd : a.dryrun = true) :
    noMut (remove_snapshot env a vmid virt label keep).1 = true := by
  unfold remove_snapshot
  rcases hrc : run_command env a.useSudo [virt, "listsnapshot", vmid]
    with ⟨ev, r⟩
  have h := noMut_run env a.useSudo [virt, "listsnapshot", vmid] false
    (isMutating_virt_plain virt "listsnapshot" vmid hv (Or.inr (Or.inr rfl)))
    (isMutating_virt_sudo virt "listsnapshot" vmid hv (Or.inr (Or.inr rfl)))
  rw [hrc] at h
  dsimp only at h ⊢
  split
  · exact h
  · split
    · exact h
    · rw [noMut_append, h, noMut_flatten]
      · rfl
      · intro l hl
        rw [List.mem_map] at hl
        obtain ⟨old, _, hle⟩ := hl
        rw [← hle]
        exact noMut_del_one_dry env a vmid virt old hd

theorem noMut_get_zfs_volume (env : Env) (a : Args)
    (proxmox_fs virt : String) :
    noMut (get_zfs_volume env a proxmox_fs virt).1 = true := by
  unfold get_zfs_volume
  rcases hrc : run_command env a.useSudo
      ["pvesm", "path", (pySplitOn "," proxmox_fs).headD ""] with ⟨ev, r⟩
  have h := noMut_run env a.useSudo
    ["pvesm", "path", (pySplitOn "," proxmox_fs).headD ""] false rfl rfl
  rw [hrc] at h
  dsimp only at h ⊢
  split
  · exact h
  · split
    · exact h
    · split
      · exact h
      · split <;> exact h

theorem noMut_zfs_send_one_dry (env : Env) (a : Args)
    (vmid virt dest k v : String) (hd : a.dryrun = true) :
    noMut (zfs_send_one env a vmid virt dest k v).1 = true := by
  unfold zfs_send_one
  dsimp only
  split
  · rcases hz : get_zfs_volume env a ((pySplitOn "," v).headD "") virt
      with ⟨ev, r⟩
    have h := noMut_get_zfs_volume env a ((pySplitOn "," v).headD "") virt
    rw [hz] at h
    dsimp only at h
    cases r with
    | error e => exact h
    | ok localzfs =>
      dsimp only
      rcases hvn : (pySplitOn ":" ((pySplitOn "," v).headD "")).get? 1
        with _ | volname
      · exact h
      · dsimp only
        rw [noMut_append, h]
        rfl
  · rfl

theorem noMut_zfs_send_go_dry (env : Env) (a : Args)
    (vmid virt dest : String) (hd : a.dryrun = true) :
    ∀ cfg : List (String × String),
    noMut (zfs_send_go env a vmid virt dest cfg).1 = true := by
  intro cfg
  induction cfg with
  | nil => rfl
  | cons p rest ih =>
    obtain ⟨k, v⟩ := p
    unfold zfs_send_go
    rcases h1 : zfs_send_one env a vmid virt dest k v with ⟨ev, r⟩
    have h := noMut_zfs_send_one_dry env a vmid virt dest k v hd
    rw [h1] at h
    dsimp only at h ⊢
    cases r with
    | error e => exact h
    | ok u =>
      dsimp only
      rcases hgo : zfs_send_go env a vmid virt dest rest with ⟨ev2, r2⟩
      rw [hgo] at ih
      dsimp only at ih ⊢
      rw [noMut_append, h, ih]
      rfl

theorem noMut_zfs_send_dry (env : Env) (a : Args)
    (vmid virt dest : String) (hv : virt = "pct" ∨ virt = "qm")
    (hd : a.dryrun = true) :
    noMut (zfs_send env a vmid virt dest).1 = true := by
  unfold zfs_send
  rcases hc : get_pve_config env a vmid virt with ⟨ev, r⟩
  have h := noMut_get_pve_config env a vmid virt hv
  rw [hc] at h
  dsimp only at h
  cases r with
  | error e => exact h
  | ok cfg =>
    dsimp only
    rcases hgo : zfs_send_go env a vmid virt dest cfg with ⟨ev2, r2⟩
    have h2 := noMut_zfs_send_go_dry env a vmid virt dest hd cfg
    rw [hgo] at h2
    dsimp only at h2 ⊢
    rw [noMut_append, h, h2]
    rfl

theorem noMut_foldActs (f : String × String → List Event × Except String Unit)
    (l : List (String × String)) (h : ∀ g ∈ l, noMut (f g).1 = true) :
    noMut (foldActs f l).1 = true := by
  induction l with
  | nil => rfl
  | cons g rest ih =>
    unfold foldActs
    rcases hf : f g with ⟨ev, r⟩
    have hg := h g (List.mem_cons_self g rest)
    rw [hf] at hg
    dsimp only at hg ⊢
    cases r with
    | error e => exact hg
    | ok u =>
      dsimp only
      rcases hgo : foldActs f rest with ⟨ev2, r2⟩
      have ih2 := ih (fun x hx => h x (List.mem_cons_of_mem g hx))
      rw [hgo] at ih2
      dsimp only at ih2 ⊢
      rw [noMut_append, hg, ih2]
      rfl

theorem noMut_mainAct (env : Env) (a : Args) (picked : List (String × String))
    (hd : a.dryrun = true)
    (hvals : ∀ p ∈ picked, p.2 = "pct" ∨ p.2 = "qm") :
    noMut (if a.snap then
        foldActs (fun g =>
          (create_snapshot env a g.1 g.2 a.label, Except.ok ())) picked
      else if a.clean then
        foldActs (fun g => remove_snapshot env a g.1 g.2 a.label a.keep) picked
      else if a.autosnap then
        foldActs (fun g =>
          let ev1 := create_snapshot env a g.1 g.2 a.label
          let (ev2, r2) := remove_snapshot env a g.1 g.2 a.label a.keep
          (ev1 ++ ev2, r2)) picked
      else
        match zfsDest a with
        | some dest => foldActs (fun g => zfs_send env a g.1 g.2 dest) picked
        | none => ([Event.printLine "usage: proxmox-autosnap.py"],
            Except.ok ())).1 = true := by
  split
  · exact noMut_foldActs _ picked (fun g hg =>
      noMut_create_snapshot_dry env a g.1 g.2 a.label hd)
  · split
    · exact noMut_foldActs _ picked (fun g hg =>
        noMut_remove_snapshot_dry env a g.1 g.2 a.label a.keep (hvals g hg) hd)
    · split
      · refine noMut_foldActs _ picked (fun g hg => ?_)
        dsimp only
        rcases hr : remove_snapshot env a g.1 g.2 a.label a.keep with ⟨ev2, r2⟩
        have h2 := noMut_remove_snapshot_dry env a g.1 g.2 a.label a.keep
          (hvals g hg) hd
        rw [hr] at h2
        dsimp only at h2 ⊢
        rw [noMut_append, noMut_create_snapshot_dry env a g.1 g.2 a.label hd,
          h2]
        rfl
      · rcases hzd : zfsDest a with _ | dest
        · rfl
        · exact noMut_foldActs _ picked (fun g hg =>
            noMut_zfs_send_dry env a g.1 g.2 dest (hvals g hg) hd)

/-- C4: in dry-run mode no mutating snapshot, delsnapshot or syncoid command
appears anywhere in a run's trace; and each executor prints exactly the
composed command vector that the corresponding live run would execute: the
create vector, each delete vector, and each syncoid vector. -/
theorem C4_dry_run (env : Env) (a : Args) (hd : a.dryrun = true) :
    (∀ e ∈ (mainRun env a).1, isMutating e = false) ∧
    (∀ vmid virt label,
      create_snapshot env a vmid virt label
        = [Event.printLine (joinSpace (sudoWrap a.useSudo
            (create_params a vmid virt (snapshot_name a.date_iso a.date_human
              a.date_truenas label env.now))))] ∧
      Event.exec (sudoWrap a.useSudo (create_params a vmid virt
          (snapshot_name a.date_iso a.date_human a.date_truenas label
            env.now)))
        ∈ create_snapshot env { a with dryrun := false } vmid virt label) ∧
    (∀ vmid virt old,
      del_one env a vmid virt old
        = [Event.printLine (joinSpace (sudoWrap a.useSudo
            (del_params a vmid virt old)))] ∧
      Event.exec (sudoWrap a.useSudo (del_params a vmid virt old))
        ∈ del_one env { a with dryrun := false } vmid virt old) ∧
    (∀ vmid virt dest k v localzfs volname ev,
      get_zfs_volume env a ((pySplitOn "," v).headD "") virt
        = (ev, .ok localzfs) →
      (pySplitOn ":" ((pySplitOn "," v).headD "")).get? 1 = some volname →
      volume_eligible k v ((pySplitOn "," v).headD "") = true →
      zfs_send_one env a vmid virt dest k v
        = (ev ++ [Event.printLine (joinSpace ["/usr/sbin/syncoid", localzfs,
            pyPathJoin dest volname, "--identifier=autosnap",
            "--no-privilege-elevation"])], .ok ()) ∧
      Event.exec ["/usr/sbin/syncoid", localzfs, pyPathJoin dest volname,
          "--identifier=autosnap", "--no-privilege-elevation"]
        ∈ (zfs_send_one env { a with dryrun := false } vmid virt dest k v).1) := by
  refine ⟨?_, ?_, ?_, ?_⟩
  · refine (noMut_iff _).mp ?_
    unfold mainRun
    split
    · rfl
    · split
      · rfl
      · rcases hg : get_filtered_vmids env a a.vmid a.exclude a.tags
            a.exclude_tags with ⟨ev, r⟩
        have hsel := noMut_get_filtered_vmids env a a.vmid a.exclude a.tags
          a.exclude_tags
        rw [hg] at hsel
        dsimp only at hsel
        cases r with
        | error e =>
          dsimp only
          rw [noMut_append, hsel]
          rfl
        | ok picked =>
          have hvals := get_filtered_vals env a a.vmid a.exclude a.tags
            a.exclude_tags picked (by rw [hg])
          dsimp only
          have hact := noMut_mainAct env a picked hd hvals
          split
          · dsimp only
            rw [noMut_append, noMut_append, hsel, hact]
            rfl
          · dsimp only
            rw [noMut_append, hsel, hact]
            rfl
  · intro vmid virt label
    constructor
    · unfold create_snapshot
      dsimp only
      rw [if_pos hd]
      rfl
    · cases hs : a.useSudo <;>
        simp [create_snapshot, run_command, sudoWrap, hs, create_params]
  · intro vmid virt old
    constructor
    · unfold del_one
      dsimp only
      rw [if_pos hd]
      rfl
    · cases hs : a.useSudo <;>
        simp [del_one, run_command, sudoWrap, hs, del_params]
  · intro vmid virt dest k v localzfs volname ev hz hvn helig
    constructor
    · unfold zfs_send_one
      dsimp only
      rw [if_pos helig, hz]
      dsimp only
      rw [hvn]
      dsimp only
      rw [if_pos hd]
    · have hz2 : get_zfs_volume env { a with dryrun := false }
          ((pySplitOn "," v).headD "") virt = (ev, .ok localzfs) := hz
      unfold zfs_send_one
      dsimp only
      rw [if_pos helig, hz2]
      dsimp only
      rw [hvn]
      dsimp only
      cases hs : a.useSudo <;> simp [run_command, hs]

theorem C4_dry_run_witness :
    argsC4.dryrun = true ∧
    (∀ e ∈ (mainRun envC4 argsC4).1, isMutating e = false) ∧
    (create_snapshot envC4 argsC4 "100" "pct" argsC4.label
        = [Event.printLine (joinSpace (sudoWrap argsC4.useSudo
            (create_params argsC4 "100" "pct" (snapshot_name argsC4.date_iso
              argsC4.date_human argsC4.date_truenas argsC4.label
              envC4.now))))] ∧
      Event.exec (sudoWrap argsC4.useSudo (create_params argsC4 "100" "pct"
          (snapshot_name argsC4.date_iso argsC4.date_human argsC4.date_truenas
            argsC4.label envC4.now)))
        ∈ create_snapshot envC4 { argsC4 with dryrun := false } "100" "pct"
            argsC4.label) ∧
    (del_one envC4 argsC4 "100" "pct" "autodaily2501010000"
        = [Event.printLine (joinSpace (sudoWrap argsC4.useSudo
            (del_params argsC4 "100" "pct" "autodaily2501010000")))] ∧
      Event.exec (sudoWrap argsC4.useSudo
          (del_params argsC4 "100" "pct" "autodaily2501010000"))
        ∈ del_one envC4 { argsC4 with dryrun := false } "100" "pct"
            "autodaily2501010000") ∧
    (zfs_send_one envC4 argsC4 "100" "qm" "rpool/backup" "scsi0"
        "local-zfs:vm-100-disk-0,size=32G"
        = ([Event.exec ["pvesm", "path", "local-zfs:vm-100-disk-0"]]
            ++ [Event.printLine (joinSpace ["/usr/sbin/syncoid",
              "rpool/data/vm-100-disk-0",
              pyPathJoin "rpool/backup" "vm-100-disk-0",
              "--identifier=autosnap", "--no-privilege-elevation"])],
           .ok ()) ∧
      Event.exec ["/usr/sbin/syncoid", "rpool/data/vm-100-disk-0",
          pyPathJoin "rpool/backup" "vm-100-disk-0", "--identifier=autosnap",
          "--no-privilege-elevation"]
        ∈ (zfs_send_one envC4 { argsC4 with dryrun := false } "100" "qm"
            "rpool/backup" "scsi0" "local-zfs:vm-100-disk-0,size=32G").1) :=
  ⟨rfl,
   (C4_dry_run envC4 argsC4 rfl).1,
   (C4_dry_run envC4 argsC4 rfl).2.1 "100" "pct" argsC4.label,
   (C4_dry_run envC4 argsC4 rfl).2.2.1 "100" "pct" "autodaily2501010000",
   (C4_dry_run envC4 argsC4 rfl).2.2.2 "100" "qm" "rpool/backup" "scsi0"
     "local-zfs:vm-100-disk-0,size=32G" "rpool/data/vm-100-disk-0"
     "vm-100-disk-0"
     [Event.exec ["pvesm", "path", "local-zfs:vm-100-disk-0"]]
     (by rfl) (by rfl) (by decide)⟩
